import Mathlib

/-!
Verification development for the chess rules engine in `engine.py`,
`pieces.py` and `config.py`.  The Python classes are shallowly embedded:
pieces become a structure over an inductive kind, the board becomes an
8×8 nested list of optional pieces, and every stateful method of the
`Game` class becomes a pure function from the game state to a new game
state.  Mutation of a Python piece object's `has_moved` attribute is
modelled by replacing the stored value; where the source relies on
aliasing (a `Move` record and the board sharing one piece object) the
embedding stores the value the object has after the mutations, which is
the only value the rest of the program can observe.  Wall-clock fields
(`turn_start_time`, `white_turn_time`, `black_turn_time`,
`turn_duration`) are omitted: they are floating-point wall-clock data
that no board-logic path reads.  Out-of-range board subscripts raise
(or wrap, when negative) in Python; the embedding guards `get_piece_at`
and `set_piece_at` with the bounds test, and every theorem quantifying
over coordinates carries in-bounds hypotheses, so the guarded and the
Python semantics agree on every access the theorems talk about.
-/

set_option maxRecDepth 4000

namespace ChessEngine

/-- Piece kind, the `name` attribute of the Python `Piece` classes
(`'P'`, `'R'`, `'N'`, `'B'`, `'Q'`, `'K'`). -/
inductive Kind where
  | P | R | N | B | Q | K
deriving DecidableEq

/-- A chess piece: `name` (the class/kind), `is_player1` (white), and the
mutable `has_moved` flag.  `color` in the source is derived from
`is_player1` and is not stored separately. -/
structure Piece where
  name : Kind
  is_player1 : Bool
  has_moved : Bool
deriving DecidableEq

/-- Board coordinates `(row, column)` as used throughout the source;
integers, since the source freely forms out-of-range candidates such as
`(row, col - 2)`. -/
abbrev Coord := Int × Int

/-- `BOARD_DIMENSION` from `config.py`. -/
def BOARD_DIMENSION : Int := 8

/-- The in-bounds test `0 <= row < 8 and 0 <= col < 8` used by the piece
move generators. -/
def inB (c : Coord) : Bool :=
  decide (0 ≤ c.1) && decide (c.1 < BOARD_DIMENSION) &&
  decide (0 ≤ c.2) && decide (c.2 < BOARD_DIMENSION)

/-- The board: a list of rows of optional pieces, as built in
`Game.__init__`. -/
abbrev Board := List (List (Option Piece))

/-- `Game.get_piece_at`: `self.board[coords[0]][coords[1]]`, guarded by
the bounds test (see the module docstring). -/
def get_piece_at (b : Board) (c : Coord) : Option Piece :=
  if inB c then (b.getD c.1.toNat []).getD c.2.toNat none else none

/-- `Game.set_piece_at`: `self.board[coords[0]][coords[1]] = piece`,
guarded by the bounds test (see the module docstring). -/
def set_piece_at (b : Board) (c : Coord) (p : Option Piece) : Board :=
  if inB c then b.set c.1.toNat ((b.getD c.1.toNat []).set c.2.toNat p) else b

/-- `Piece.is_enemy`: the other square holds a piece of the opposite
owner. -/
def is_enemy (pc : Piece) (other : Option Piece) : Bool :=
  match other with
  | none => false
  | some o => o.is_player1 != pc.is_player1

/-- The `Move` record of `engine.py` (minus the wall-clock
`turn_duration`). -/
structure Move where
  piece_moved : Piece
  start_coords : Coord
  end_coords : Coord
  piece_captured : Option Piece
  is_promotion : Bool
  promoted_piece : Option Piece
  piece_had_moved : Bool
  is_castling : Bool
  is_en_passant : Bool
deriving DecidableEq

/-- One ray of `Piece._get_sliding_moves`: step from `(r, c)` in
direction `(dr, dc)`, stopping at the edge, after an enemy square, or
before a friendly square.  The fuel is `BOARD_DIMENSION - 1 = 7`, the
length of Python's `range(1, BOARD_DIMENSION)`. -/
def slide (pc : Piece) (b : Board) (r c dr dc : Int) : Nat → List Coord
  | 0 => []
  | fuel + 1 =>
    let nr := r + dr
    let nc := c + dc
    if inB (nr, nc) then
      match get_piece_at b (nr, nc) with
      | none => (nr, nc) :: slide pc b nr nc dr dc fuel
      | some t => if t.is_player1 != pc.is_player1 then [(nr, nc)] else []
    else []

/-- `Piece._get_sliding_moves`: concatenate the rays of each direction. -/
def get_sliding_moves (pc : Piece) (b : Board) (s : Coord)
    (directions : List (Int × Int)) : List Coord :=
  directions.flatMap (fun d => slide pc b s.1 s.2 d.1 d.2 7)

/-- The non-en-passant part of `Pawn.get_moves`: forward one step (plus
the initial double step) and the two diagonal captures. -/
def pawn_base_moves (pc : Piece) (b : Board) (s : Coord) : List Coord :=
  let row := s.1
  let col := s.2
  let dir : Int := if pc.is_player1 then -1 else 1
  let oneRow := row + dir
  let twoRow := row + 2 * dir
  let fwd : List Coord :=
    if 0 ≤ oneRow ∧ oneRow < BOARD_DIMENSION ∧ get_piece_at b (oneRow, col) = none then
      (oneRow, col) ::
        (if pc.has_moved = false ∧ 0 ≤ twoRow ∧ twoRow < BOARD_DIMENSION ∧
            get_piece_at b (twoRow, col) = none then
          [(twoRow, col)]
        else [])
    else []
  let caps : List Coord :=
    ([-1, 1] : List Int).filterMap (fun dc =>
      let t : Coord := (oneRow, col + dc)
      if inB t ∧ is_enemy pc (get_piece_at b t) then some t else none)
  fwd ++ caps

/-- The en-passant part of `Pawn.get_moves`: if the last recorded move is
an adjacent pawn double-step ending on this pawn's row, add the square
behind it.  Emitted without a bounds check, exactly as in the source. -/
def pawn_ep_moves (pc : Piece) (s : Coord) (hist : List Move) : List Coord :=
  let dir : Int := if pc.is_player1 then -1 else 1
  match hist.getLast? with
  | none => []
  | some last =>
    if last.piece_moved.name = Kind.P ∧
        (last.start_coords.1 - last.end_coords.1).natAbs = 2 ∧
        last.end_coords.1 = s.1 ∧
        (last.end_coords.2 - s.2).natAbs = 1 then
      [(s.1 + dir, last.end_coords.2)]
    else []

/-- The knight offset table of `Knight.get_moves`. -/
def knight_offsets : List (Int × Int) :=
  [(-2, -1), (-2, 1), (-1, -2), (-1, 2), (1, -2), (1, 2), (2, -1), (2, 1)]

/-- `Knight.get_moves`: offset squares that are in bounds and empty or
enemy-occupied. -/
def knight_moves (pc : Piece) (b : Board) (s : Coord) : List Coord :=
  knight_offsets.filterMap (fun d =>
    let t : Coord := (s.1 + d.1, s.2 + d.2)
    if inB t ∧ (get_piece_at b t = none ∨ is_enemy pc (get_piece_at b t)) then
      some t
    else none)

/-- The 8 one-square king offsets in the order Python's nested
`for dr / for dc` loops produce them (skipping `(0, 0)`). -/
def king_offsets : List (Int × Int) :=
  [(-1, -1), (-1, 0), (-1, 1), (0, -1), (0, 1), (1, -1), (1, 0), (1, 1)]

/-- The standard one-square part of `King.get_moves`. -/
def king_std_moves (pc : Piece) (b : Board) (s : Coord) : List Coord :=
  king_offsets.filterMap (fun d =>
    let t : Coord := (s.1 + d.1, s.2 + d.2)
    if inB t ∧ (get_piece_at b t = none ∨ is_enemy pc (get_piece_at b t)) then
      some t
    else none)

/-- The unvalidated castling proposals of `King.get_moves`: whenever the
king has never moved, `(row, col + 2)` and `(row, col - 2)` are appended
with no bounds or occupancy check. -/
def king_castle_proposals (pc : Piece) (s : Coord) : List Coord :=
  if pc.has_moved then [] else [(s.1, s.2 + 2), (s.1, s.2 - 2)]

/-- `get_moves` dispatched on the piece kind, exactly as the Python
subclasses override it.  `Pawn.get_moves` is the base part followed by
the en-passant part; `King.get_moves` is the standard part followed by
the castling proposals. -/
def get_moves (pc : Piece) (b : Board) (s : Coord) (hist : List Move) : List Coord :=
  match pc.name with
  | Kind.P => pawn_base_moves pc b s ++ pawn_ep_moves pc s hist
  | Kind.R => get_sliding_moves pc b s [(0, 1), (0, -1), (1, 0), (-1, 0)]
  | Kind.N => knight_moves pc b s
  | Kind.B => get_sliding_moves pc b s [(1, 1), (1, -1), (-1, 1), (-1, -1)]
  | Kind.Q => get_sliding_moves pc b s
      [(0, 1), (0, -1), (1, 0), (-1, 0), (1, 1), (1, -1), (-1, 1), (-1, -1)]
  | Kind.K => king_std_moves pc b s ++ king_castle_proposals pc s

/-- The game-status enumeration carried in `Game.game_state` (a string
in the source; the string constants are in bijection with these
constructors).  `resignation` records which side wins. -/
inductive Status where
  | active
  | check
  | checkmate
  | stalemate
  | draw_fifty
  | draw_repetition
  | draw_insufficient
  | draw_agreement
  | resignation (winner_is_white : Bool)
deriving DecidableEq

/-- The key of the `position_history` dictionary.  The source keys it by
the string `name + color[0]` per square (`' '` for empty, row-major)
concatenated with `str(current_player_index)`; that string determines
and is determined by the per-square `(kind, is_player1)` options plus
the index, which is what this key stores. -/
abbrev PosKey := List (Option (Kind × Bool)) × Nat

/-- The `Game` engine state (minus the wall-clock fields, see the module
docstring).  The two `Player` records are fixed (`players[0]` is White)
and are represented by `current_player_index` alone. -/
structure Game where
  board : Board
  current_player_index : Nat
  game_state : Status
  move_history : List Move
  white_captured : List Piece
  black_captured : List Piece
  halfmove_clock : Nat
  position_history : List (PosKey × Nat)
deriving DecidableEq

/-- `get_current_player().is_player1`: `players[0]` is White. -/
def current_is_white (g : Game) : Bool := g.current_player_index == 0

/-- `Game._iterate_squares`: all 64 coordinates in row-major order. -/
def squares : List Coord :=
  (List.range 8).flatMap (fun r => (List.range 8).map (fun c => (Int.ofNat r, Int.ofNat c)))

/-- `Game._find_piece_by_type(King, player)`: the first square (row-major)
holding the player's king. -/
def find_king (g : Game) (is_p1 : Bool) : Option Coord :=
  squares.find? (fun c =>
    match get_piece_at g.board c with
    | some p => p.name == Kind.K && p.is_player1 == is_p1
    | none => false)

/-- `Game._is_square_attacked`: some piece of `by_white`'s side lists the
target among its `get_moves` results. -/
def is_square_attacked (g : Game) (target : Coord) (by_white : Bool) : Bool :=
  squares.any (fun c =>
    match get_piece_at g.board c with
    | some p => p.is_player1 == by_white && (get_moves p g.board c g.move_history).contains target
    | none => false)

/-- `Game.is_in_check`: the player's king square is attacked by the other
side; `False` when no king is found. -/
def is_in_check (g : Game) (is_p1 : Bool) : Bool :=
  match find_king g is_p1 with
  | some kp => is_square_attacked g kp (!is_p1)
  | none => false

/-- `Game._move_results_in_check`: relocate the piece from `s` to `e` (a
plain relocate, no castling/en-passant/promotion bookkeeping), test
check for the current player, and revert (reverting is implicit here:
the original board is untouched). -/
def move_results_in_check (g : Game) (s e : Coord) : Bool :=
  let pc := get_piece_at g.board s
  let b2 := set_piece_at (set_piece_at g.board e pc) s none
  is_in_check { g with board := b2 } (current_is_white g)

/-- `Game._get_castling_moves`: the dedicated castling-eligibility check.
Uses only the row of the supplied king coordinates; checks the current
player's check state, the corner rook's identity and `has_moved` flag,
emptiness of the in-between squares, and attacks on the king's path. -/
def get_castling_moves (g : Game) (kc : Coord) : List Coord :=
  if is_in_check g (current_is_white g) then []
  else
    let row := kc.1
    let pw := current_is_white g
    let ks : List Coord :=
      match get_piece_at g.board (row, 7) with
      | some rk =>
        if rk.name == Kind.R && !rk.has_moved &&
            (get_piece_at g.board (row, 5)).isNone &&
            (get_piece_at g.board (row, 6)).isNone &&
            !is_square_attacked g (row, 5) (!pw) &&
            !is_square_attacked g (row, 6) (!pw) then
          [(row, 6)]
        else []
      | none => []
    let qs : List Coord :=
      match get_piece_at g.board (row, 0) with
      | some rq =>
        if rq.name == Kind.R && !rq.has_moved &&
            (get_piece_at g.board (row, 1)).isNone &&
            (get_piece_at g.board (row, 2)).isNone &&
            (get_piece_at g.board (row, 3)).isNone &&
            !is_square_attacked g (row, 2) (!pw) &&
            !is_square_attacked g (row, 3) (!pw) then
          [(row, 2)]
        else []
      | none => []
    ks ++ qs

/-- `Game.get_legal_moves_for_piece`: pseudo-legal candidates (plus the
castling-eligibility candidates when the piece is a king), filtered by
the relocate-and-test simulation. -/
def get_legal_moves_for_piece (g : Game) (c : Coord) : List Coord :=
  match get_piece_at g.board c with
  | none => []
  | some pc =>
    let pseudo := get_moves pc g.board c g.move_history ++
      (if pc.name == Kind.K then get_castling_moves g c else [])
    pseudo.filter (fun m => !move_results_in_check g c m)

/-- `piece_map.get(promotion_choice, Queen)` from
`Game._execute_board_move`: the requested promotion kind, defaulting to
Queen for anything outside `{'Q','R','B','N'}` including `None`. -/
def promotion_kind (choice : Option Char) : Kind :=
  match choice with
  | some 'Q' => Kind.Q
  | some 'R' => Kind.R
  | some 'B' => Kind.B
  | some 'N' => Kind.N
  | _ => Kind.Q

/-- `Game._execute_board_move`: classify the move (castling when a king
moves two files; en passant when a pawn changes file onto an empty
square), update the board, the halfmove clock and the captured lists,
and build the `Move` record.  The `none` branch is unreachable from
`make_move` (the source would raise an `AttributeError` there). -/
def execute_board_move (g : Game) (s e : Coord) (choice : Option Char) : Game × Move :=
  match get_piece_at g.board s with
  | none => (g, ⟨⟨Kind.P, true, false⟩, s, e, none, false, none, false, false, false⟩)
  | some pc =>
    let captured0 := get_piece_at g.board e
    let clock := if pc.name == Kind.P || captured0.isSome then 0 else g.halfmove_clock + 1
    let piece_had_moved := pc.has_moved
    let step :=
      if pc.name = Kind.K ∧ (s.2 - e.2).natAbs = 2 then
        let rook_start_col : Int := if e.2 > s.2 then 7 else 0
        let rook_end_col : Int := if rook_start_col = 7 then 5 else 3
        let rook := get_piece_at g.board (s.1, rook_start_col)
        let b := set_piece_at g.board (s.1, rook_end_col)
          (rook.map (fun r => { r with has_moved := true }))
        let b := set_piece_at b (s.1, rook_start_col) none
        (b, captured0, true, false)
      else if pc.name = Kind.P ∧ s.2 ≠ e.2 ∧ captured0 = none then
        let cap_sq : Coord := (s.1, e.2)
        let cap := get_piece_at g.board cap_sq
        (set_piece_at g.board cap_sq none, cap, false, true)
      else
        (g.board, captured0, false, false)
    let b1 := step.1
    let captured := step.2.1
    let is_castling := step.2.2.1
    let is_en_passant := step.2.2.2
    let caps :=
      match captured with
      | some cp =>
        if pc.is_player1 then (g.white_captured, g.black_captured ++ [cp])
        else (g.white_captured ++ [cp], g.black_captured)
      | none => (g.white_captured, g.black_captured)
    let is_promotion := pc.name == Kind.P && (e.1 == 0 || e.1 == 7)
    let promoted : Option Piece :=
      if is_promotion then some ⟨promotion_kind choice, pc.is_player1, false⟩ else none
    let moved_pc : Piece := { pc with has_moved := true }
    let b2 := set_piece_at b1 e (if is_promotion then promoted else some moved_pc)
    let b3 := set_piece_at b2 s none
    ({ g with
        board := b3
        halfmove_clock := clock
        white_captured := caps.1
        black_captured := caps.2 },
     ⟨moved_pc, s, e, captured, is_promotion, promoted, piece_had_moved,
      is_castling, is_en_passant⟩)

/-- The per-square component of `Game._get_position_hash` (row-major
`name + color[0]`, `' '` for an empty square). -/
def position_hash_board (b : Board) : List (Option (Kind × Bool)) :=
  squares.map (fun c => (get_piece_at b c).map (fun p => (p.name, p.is_player1)))

/-- `Game._get_position_hash`: board layout plus side to move. -/
def position_hash (g : Game) : PosKey :=
  (position_hash_board g.board, g.current_player_index)

/-- `position_history.get(key, 0)` on the association-list model of the
dictionary. -/
def hist_get (h : List (PosKey × Nat)) (k : PosKey) : Nat :=
  match h.find? (fun en => decide (en.1 = k)) with
  | some en => en.2
  | none => 0

/-- `Game._update_position_history`: bump the current position's count
(dictionary get-then-assign; keys are unique, so replacing every
matching entry is the dictionary update). -/
def hist_inc (h : List (PosKey × Nat)) (k : PosKey) : List (PosKey × Nat) :=
  let n := hist_get h k + 1
  if h.any (fun en => decide (en.1 = k)) then
    h.map (fun en => if en.1 = k then (en.1, n) else en)
  else h ++ [(k, n)]

/-- `Game._update_position_history` applied to the game state. -/
def update_position_history (g : Game) : Game :=
  { g with position_history := hist_inc g.position_history (position_hash g) }

/-- `Game._check_insufficient_material`: at most 3 pieces remain and
either exactly 2 remain, or exactly 3 with a bishop or knight among
them. -/
def check_insufficient_material (g : Game) : Bool :=
  let pieces := squares.filterMap (fun c => get_piece_at g.board c)
  if pieces.length ≤ 3 then
    if pieces.length == 2 then true
    else if pieces.length == 3 &&
        pieces.any (fun p => p.name == Kind.B || p.name == Kind.N) then true
    else false
  else false

/-- `Game._update_game_status`: the strict precedence chain — fifty-move
clock, threefold count, insufficient material, then
checkmate/stalemate/check/active from the side to move's legal moves
and check state. -/
def update_game_status (g : Game) : Status :=
  if g.halfmove_clock ≥ 100 then Status.draw_fifty
  else if hist_get g.position_history (position_hash g) ≥ 3 then Status.draw_repetition
  else if check_insufficient_material g then Status.draw_insufficient
  else
    let w := current_is_white g
    let has_legal := squares.any (fun c =>
      match get_piece_at g.board c with
      | some p => p.is_player1 == w && !(get_legal_moves_for_piece g c).isEmpty
      | none => false)
    if !has_legal then
      if is_in_check g w then Status.checkmate else Status.stalemate
    else
      if is_in_check g w then Status.check else Status.active

/-- `Game._update_game_after_move`: push the record, flip the side to
move, count the new position, recompute the status. -/
def update_game_after_move (g : Game) (mv : Move) : Game :=
  let g2 := { g with
    move_history := g.move_history ++ [mv]
    current_player_index := 1 - g.current_player_index }
  let g3 := update_position_history g2
  { g3 with game_state := update_game_status g3 }

/-- `Game.make_move`: reject (no-op, `False`) when the origin is empty or
the piece is not the mover's; otherwise execute unconditionally and
return `True`. -/
def make_move (g : Game) (s e : Coord) (choice : Option Char) : Game × Bool :=
  match get_piece_at g.board s with
  | none => (g, false)
  | some pc =>
    if pc.is_player1 != current_is_white g then (g, false)
    else
      let r := execute_board_move g s e choice
      (update_game_after_move r.1 r.2, true)

/-- `Game.undo_last_move`: pop the last record and reverse it; restores
the mover with its prior flag, rebuilds the rook square for castling and
the captured pawn square for en passant, pops the captured list, flips
the side to move and recomputes the status.  The halfmove clock and the
position-history counts are left as they are, exactly as in the
source. -/
def undo_last_move (g : Game) : Game :=
  match g.move_history.getLast? with
  | none => g
  | some mv =>
    let hist := g.move_history.dropLast
    let b0 := set_piece_at g.board mv.start_coords
      (some { mv.piece_moved with has_moved := mv.piece_had_moved })
    let b1 :=
      if mv.is_castling then
        let rook_start_col : Int := if mv.end_coords.2 > mv.start_coords.2 then 7 else 0
        let rook_end_col : Int := if rook_start_col = 7 then 5 else 3
        let rook := get_piece_at b0 (mv.start_coords.1, rook_end_col)
        let b := set_piece_at b0 (mv.start_coords.1, rook_start_col)
          (rook.map (fun r => { r with has_moved := false }))
        let b := set_piece_at b (mv.start_coords.1, rook_end_col) none
        set_piece_at b mv.end_coords none
      else if mv.is_en_passant then
        let b := set_piece_at b0 (mv.start_coords.1, mv.end_coords.2) mv.piece_captured
        set_piece_at b mv.end_coords none
      else
        set_piece_at b0 mv.end_coords mv.piece_captured
    let caps :=
      if mv.piece_captured.isSome then
        if mv.piece_moved.is_player1 then (g.white_captured, g.black_captured.dropLast)
        else (g.white_captured.dropLast, g.black_captured)
      else (g.white_captured, g.black_captured)
    let g2 := { g with
      board := b1
      move_history := hist
      white_captured := caps.1
      black_captured := caps.2
      current_player_index := 1 - g.current_player_index }
    { g2 with game_state := update_game_status g2 }

/-- `PIECE_SYMBOLS` from `config.py`: uppercase for white, lowercase for
black. -/
def piece_symbol (p : Piece) : String :=
  match p.name, p.is_player1 with
  | Kind.K, true => "K"
  | Kind.Q, true => "Q"
  | Kind.R, true => "R"
  | Kind.B, true => "B"
  | Kind.N, true => "N"
  | Kind.P, true => "P"
  | Kind.K, false => "k"
  | Kind.Q, false => "q"
  | Kind.R, false => "r"
  | Kind.B, false => "b"
  | Kind.N, false => "n"
  | Kind.P, false => "p"

/-- One rank of the FEN placement field: run-length-encode the empty
squares, exactly as the inner loop of `Game.to_fen` does. -/
def fen_row (cells : List (Option Piece)) : String :=
  let st := cells.foldl (fun (acc : String × Nat) cell =>
    match cell with
    | some p => (acc.1 ++ (if acc.2 > 0 then toString acc.2 else "") ++ piece_symbol p, 0)
    | none => (acc.1, acc.2 + 1)) ("", 0)
  st.1 ++ (if st.2 > 0 then toString st.2 else "")

/-- The FEN placement field of `Game.to_fen`: ranks from row 0 (rank 8)
down to row 7 (rank 1), joined by `'/'`. -/
def fen_board (g : Game) : String :=
  String.intercalate "/" ((List.range 8).map (fun r => fen_row (g.board.getD r [])))

/-- The FEN active-color field of `Game.to_fen`. -/
def fen_active_color (g : Game) : String :=
  if g.current_player_index == 0 then "w" else "b"

/-- The FEN castling-rights field of `Game.to_fen`: derived from the
identity and `has_moved` flags of the pieces on the four canonical
corner squares and the two king home squares, not from history. -/
def fen_castling (g : Game) : String :=
  let kingOk : Coord → Bool := fun c =>
    match get_piece_at g.board c with
    | some p => p.name == Kind.K && !p.has_moved
    | none => false
  let rookOk : Coord → Bool := fun c =>
    match get_piece_at g.board c with
    | some p => p.name == Kind.R && !p.has_moved
    | none => false
  let str :=
    (if kingOk (7, 4) && rookOk (7, 7) then "K" else "") ++
    (if kingOk (7, 4) && rookOk (7, 0) then "Q" else "") ++
    (if kingOk (0, 4) && rookOk (0, 7) then "k" else "") ++
    (if kingOk (0, 4) && rookOk (0, 0) then "q" else "")
  if str == "" then "-" else str

/-- The FEN en-passant-target field of `Game.to_fen`: set only when the
immediately preceding move is a pawn double-step. -/
def fen_en_passant (g : Game) : String :=
  match g.move_history.getLast? with
  | some last =>
    if last.piece_moved.name == Kind.P &&
        (last.start_coords.1 - last.end_coords.1).natAbs == 2 then
      let target_row := (last.start_coords.1 + last.end_coords.1) / 2
      let target_col := last.start_coords.2
      String.mk [Char.ofNat (97 + target_col.toNat)] ++ toString (8 - target_row)
    else "-"
  | none => "-"

/-- `Game.to_fen`: the six space-joined fields. -/
def to_fen (g : Game) : String :=
  String.intercalate " "
    [fen_board g, fen_active_color g, fen_castling g, fen_en_passant g,
     toString g.halfmove_clock, toString (g.move_history.length / 2 + 1)]

/-- A back rank as `Game._place_pieces` lays it out:
Rook, Knight, Bishop, Queen, King, Bishop, Knight, Rook. -/
def back_row (w : Bool) : List (Option Piece) :=
  [some ⟨Kind.R, w, false⟩, some ⟨Kind.N, w, false⟩, some ⟨Kind.B, w, false⟩,
   some ⟨Kind.Q, w, false⟩, some ⟨Kind.K, w, false⟩, some ⟨Kind.B, w, false⟩,
   some ⟨Kind.N, w, false⟩, some ⟨Kind.R, w, false⟩]

/-- A rank of pawns as `Game._place_pieces` lays it out. -/
def pawn_row (w : Bool) : List (Option Piece) :=
  List.replicate 8 (some ⟨Kind.P, w, false⟩)

/-- An empty rank. -/
def empty_row : List (Option Piece) := List.replicate 8 none

/-- The board `Game.__init__` plus `Game._place_pieces` produce: black on
rows 0–1, white on rows 6–7. -/
def initial_board : Board :=
  [back_row false, pawn_row false, empty_row, empty_row,
   empty_row, empty_row, pawn_row true, back_row true]

/-- A fresh `Game()`: initial board, White to move, `active`, empty
histories and captured lists, zero halfmove clock, and the starting
position already counted once by the constructor's
`_update_position_history` call. -/
def initialGame : Game :=
  update_position_history
    ⟨initial_board, 0, Status.active, [], [], [], 0, []⟩

/-! Definitions modelled from the spec's words, for comparison with the
ones above that embed the source. -/

/-- Modelled from the spec: pseudo-legal candidate destinations "where
castling destinations are excluded from the attack calculation" — the
king contributes only its standard one-square moves, every other piece
its full `get_moves`. -/
def get_moves_no_castle (pc : Piece) (b : Board) (s : Coord) (hist : List Move) : List Coord :=
  match pc.name with
  | Kind.K => king_std_moves pc b s
  | _ => get_moves pc b s hist

/-- Modelled from the spec: the attack test of the spec's check rule,
with castling destinations excluded. -/
def spec_attacked_no_castle (g : Game) (target : Coord) (by_white : Bool) : Bool :=
  squares.any (fun c =>
    match get_piece_at g.board c with
    | some p => p.is_player1 == by_white &&
        (get_moves_no_castle p g.board c g.move_history).contains target
    | none => false)

/-- Modelled from the spec: "a side is in check if its King's square is
attacked by any enemy piece", with castling destinations excluded from
the attack calculation. -/
def spec_in_check_claimed (g : Game) (is_p1 : Bool) : Bool :=
  match find_king g is_p1 with
  | some kp => spec_attacked_no_castle g kp (!is_p1)
  | none => false

/-- The status chain of the spec's "status recomputation" section,
parametrized by the insufficient-material test (the only clause on
which the claimed and the amended readings disagree). -/
def spec_status_core (insuff : Game → Bool) (g : Game) : Status :=
  if g.halfmove_clock ≥ 100 then Status.draw_fifty
  else if hist_get g.position_history (position_hash g) ≥ 3 then Status.draw_repetition
  else if insuff g then Status.draw_insufficient
  else
    let w := current_is_white g
    let has_legal := squares.any (fun c =>
      match get_piece_at g.board c with
      | some p => p.is_player1 == w && !(get_legal_moves_for_piece g c).isEmpty
      | none => false)
    if !has_legal then
      if is_in_check g w then Status.checkmate else Status.stalemate
    else
      if is_in_check g w then Status.check else Status.active

/-- Modelled from the spec, claim C5's words: "total remaining pieces
<= 2, or exactly 3 pieces where the third is a Bishop or Knight". -/
def spec_insufficient_claimed (g : Game) : Bool :=
  let pieces := squares.filterMap (fun c => get_piece_at g.board c)
  decide (pieces.length ≤ 2) ||
    (pieces.length == 3 && pieces.any (fun p => p.name == Kind.B || p.name == Kind.N))

/-- The amended insufficient-material clause: "exactly 2" in place of
"<= 2". -/
def spec_insufficient_exact (g : Game) : Bool :=
  let pieces := squares.filterMap (fun c => get_piece_at g.board c)
  pieces.length == 2 ||
    (pieces.length == 3 && pieces.any (fun p => p.name == Kind.B || p.name == Kind.N))

/-- The status chain exactly as claim C5 states it. -/
def spec_status_claimed (g : Game) : Status := spec_status_core spec_insufficient_claimed g

/-- The status chain with the amended insufficient-material clause. -/
def spec_status_amended (g : Game) : Status := spec_status_core spec_insufficient_exact g

/-! Concrete game states used by the claim theorems below. -/

/-- C1 scenario, first move: White pushes the a-pawn one square. -/
def c1_g1 : Game := (make_move initialGame (6, 0) (5, 0) none).1

/-- C1 scenario, second move: Black relocates the king from e8 to a1
(capturing the white queenside rook).  `make_move` accepts it: it does
not validate destinations. -/
def c1_g2 : Game := (make_move c1_g1 (0, 4) (7, 0) none).1

/-- A board holding only an unmoved white king on e1 and a moved black
king on g1, two files apart on the same rank. -/
def cg3_board : Board :=
  [empty_row, empty_row, empty_row, empty_row, empty_row, empty_row, empty_row,
   [none, none, none, none, some ⟨Kind.K, true, false⟩, none,
    some ⟨Kind.K, false, true⟩, none]]

/-- The C3 counterexample state: White to move on `cg3_board`. -/
def cg3 : Game := ⟨cg3_board, 0, Status.active, [], [], [], 0, []⟩

/-- A board holding only a black king on a8 and a white queen on b8. -/
def cg5_board : Board :=
  [[some ⟨Kind.K, false, true⟩, some ⟨Kind.Q, true, true⟩, none, none, none, none, none, none],
   empty_row, empty_row, empty_row, empty_row, empty_row, empty_row, empty_row]

/-- The C5 counterexample state: Black to move on `cg5_board`; capturing
the queen leaves a single piece on the board. -/
def cg5 : Game := ⟨cg5_board, 1, Status.active, [], [], [], 0, []⟩

/-- A board with a white pawn on e5 and a black pawn on d5, the en
passant geometry of claim C7. -/
def cg7_board : Board :=
  [empty_row, empty_row, empty_row,
   [none, none, none, some ⟨Kind.P, false, true⟩, some ⟨Kind.P, true, true⟩, none, none, none],
   empty_row, empty_row, empty_row, empty_row]

/-- The C7 witness state: White to move on `cg7_board`. -/
def cg7 : Game := ⟨cg7_board, 0, Status.active, [], [], [], 0, []⟩

/-- A board with a single white pawn on a7, one step from the back
rank. -/
def cg8_board : Board :=
  [empty_row,
   [some ⟨Kind.P, true, true⟩, none, none, none, none, none, none, none],
   empty_row, empty_row, empty_row, empty_row, empty_row, empty_row]

/-- The C8 witness state: White to move on `cg8_board`. -/
def cg8 : Game := ⟨cg8_board, 0, Status.active, [], [], [], 0, []⟩

/-- A board holding only an unmoved white king in the corner square
`(0, 7)`: its kingside castling proposal `(0, 9)` leaves the board. -/
def c10_board : Board :=
  [[none, none, none, none, none, none, none, some ⟨Kind.K, true, false⟩],
   empty_row, empty_row, empty_row, empty_row, empty_row, empty_row, empty_row]

/-- Shape invariant of every board the engine builds: 8 rows of 8
cells. -/
def board_wf (b : Board) : Prop :=
  b.length = 8 ∧ ∀ i : Nat, i < 8 → (b.getD i []).length = 8

instance (b : Board) : Decidable (board_wf b) :=
  decidable_of_iff (b.length = 8 ∧ ∀ i ∈ List.range 8, (b.getD i []).length = 8)
    (by
      constructor
      · rintro ⟨h1, h2⟩
        exact ⟨h1, fun i hi => h2 i (List.mem_range.mpr hi)⟩
      · rintro ⟨h1, h2⟩
        exact ⟨h1, fun i hi => h2 i (List.mem_range.mp hi)⟩)

/-- An unmoved rook sits in the square (the corner test of
`_get_castling_moves` and `to_fen`). -/
def rook_ok (o : Option Piece) : Bool :=
  match o with
  | some rk => rk.name == Kind.R && !rk.has_moved
  | none => false

/-- The board-shape part of the castling-eligibility conditions of
`_get_castling_moves`, stated for a king on its home file: an unmoved
rook in the relevant corner and every square between king and rook
empty.  (The check-related conditions of `_get_castling_moves` are not
needed for the undo round trip.) -/
def castle_pre (g : Game) (s e : Coord) : Prop :=
  (s.2 = 4 ∧ e = (s.1, 6) ∧
    rook_ok (get_piece_at g.board (s.1, 7)) = true ∧
    get_piece_at g.board (s.1, 5) = none ∧
    get_piece_at g.board (s.1, 6) = none) ∨
  (s.2 = 4 ∧ e = (s.1, 2) ∧
    rook_ok (get_piece_at g.board (s.1, 0)) = true ∧
    get_piece_at g.board (s.1, 1) = none ∧
    get_piece_at g.board (s.1, 2) = none ∧
    get_piece_at g.board (s.1, 3) = none)

/-! Helper lemmas about the board representation. -/

set_option maxHeartbeats 1000000

theorem inB_iff (c : Coord) :
    inB c = true ↔ 0 ≤ c.1 ∧ c.1 < 8 ∧ 0 ≤ c.2 ∧ c.2 < 8 := by
  simp [inB, BOARD_DIMENSION, and_assoc]

theorem getD_set_self {α : Type} (l : List α) (i : Nat) (v d : α) (h : i < l.length) :
    (l.set i v).getD i d = v := by
  rw [List.getD_eq_getElem?_getD, List.getElem?_set_self h, Option.getD_some]

theorem getD_set_ne {α : Type} (l : List α) {i j : Nat} (v d : α) (h : i ≠ j) :
    (l.set i v).getD j d = l.getD j d := by
  rw [List.getD_eq_getElem?_getD, List.getElem?_set_ne h, ← List.getD_eq_getElem?_getD]

theorem getD_set_oob {α : Type} (l : List α) {i : Nat} (j : Nat) (v d : α)
    (h : l.length ≤ i) : (l.set i v).getD j d = l.getD j d := by
  rw [List.set_eq_of_length_le h]

theorem coord_toNat_inj {c c' : Coord} (hc : inB c = true) (hc' : inB c' = true)
    (h1 : c.1.toNat = c'.1.toNat) (h2 : c.2.toNat = c'.2.toNat) : c = c' := by
  rw [inB_iff] at hc hc'
  have e1 : c.1 = c'.1 := by omega
  have e2 : c.2 = c'.2 := by omega
  exact Prod.ext e1 e2

theorem board_wf_set {b : Board} (h : board_wf b) (c : Coord) (v : Option Piece) :
    board_wf (set_piece_at b c v) := by
  unfold set_piece_at
  split
  case isTrue hin =>
    obtain ⟨hlen, hrow⟩ := h
    refine ⟨by simpa using hlen, ?_⟩
    intro i hi
    rcases eq_or_ne (c.1.toNat) i with rfl | hne
    · rw [getD_set_self _ _ _ _ (by omega), List.length_set]
      exact hrow _ hi
    · rw [getD_set_ne _ _ _ hne]
      exact hrow _ hi
  case isFalse => exact h

theorem get_set_self {b : Board} (h : board_wf b) {c : Coord} (hin : inB c = true)
    (v : Option Piece) : get_piece_at (set_piece_at b c v) c = v := by
  obtain ⟨hlen, hrow⟩ := h
  have hr : c.1.toNat < 8 := by rw [inB_iff] at hin; omega
  have hcol : c.2.toNat < 8 := by rw [inB_iff] at hin; omega
  unfold get_piece_at set_piece_at
  rw [if_pos hin, if_pos hin,
    getD_set_self _ _ _ _ (by omega),
    getD_set_self _ _ _ _ (by rw [hrow _ hr]; exact hcol)]

theorem get_set_ne {b : Board} {c c' : Coord} (v : Option Piece) (hne : c' ≠ c) :
    get_piece_at (set_piece_at b c v) c' = get_piece_at b c' := by
  unfold get_piece_at set_piece_at
  by_cases hc : inB c = true
  swap
  · rw [if_neg hc]
  rw [if_pos hc]
  by_cases hc' : inB c' = true
  swap
  · rw [if_neg hc', if_neg hc']
  rw [if_pos hc', if_pos hc']
  by_cases hrowlt : c.1.toNat < b.length
  swap
  · rw [getD_set_oob _ _ _ _ (by omega)]
  rcases eq_or_ne (c'.1.toNat) (c.1.toNat) with heq | hrne
  · have hcol : c.2.toNat ≠ c'.2.toNat := by
      intro hcol
      exact hne (coord_toNat_inj hc' hc heq hcol.symm)
    rw [heq, getD_set_self _ _ _ _ hrowlt, getD_set_ne _ _ _ hcol]
  · rw [getD_set_ne _ _ _ (Ne.symm hrne)]

theorem get_piece_at_natCast {b : Board} {i j : Nat} (hi : i < 8) (hj : j < 8) :
    get_piece_at b ((i : Int), (j : Int)) = (b.getD i []).getD j none := by
  have hin : inB ((i : Int), (j : Int)) = true := by
    rw [inB_iff]
    refine ⟨Int.natCast_nonneg i, ?_, Int.natCast_nonneg j, ?_⟩
    · show (i : Int) < 8
      exact_mod_cast hi
    · show (j : Int) < 8
      exact_mod_cast hj
  unfold get_piece_at
  rw [if_pos hin]
  simp [Int.toNat_natCast]

theorem board_ext {b b' : Board} (h : board_wf b) (h' : board_wf b')
    (hpt : ∀ c : Coord, inB c = true → get_piece_at b c = get_piece_at b' c) : b = b' := by
  obtain ⟨hlen, hrow⟩ := h
  obtain ⟨hlen', hrow'⟩ := h'
  apply List.ext_getElem?
  intro i
  by_cases hi : i < 8
  swap
  · rw [List.getElem?_eq_none (by omega), List.getElem?_eq_none (by omega)]
  rw [List.getElem?_eq_getElem (by omega), List.getElem?_eq_getElem (by omega)]
  rw [← List.getD_eq_getElem b [] (by omega), ← List.getD_eq_getElem b' [] (by omega)]
  congr 1
  apply List.ext_getElem?
  intro j
  by_cases hj : j < 8
  swap
  · rw [List.getElem?_eq_none (by rw [hrow i hi]; omega), List.getElem?_eq_none (by rw [hrow' i hi]; omega)]
  have hin : inB ((i : Int), (j : Int)) = true := by
    rw [inB_iff]
    refine ⟨Int.natCast_nonneg i, ?_, Int.natCast_nonneg j, ?_⟩
    · show (i : Int) < 8
      exact_mod_cast hi
    · show (j : Int) < 8
      exact_mod_cast hj
  have hp := hpt ((i : Int), (j : Int)) hin
  rw [get_piece_at_natCast hi hj, get_piece_at_natCast hi hj] at hp
  rw [List.getElem?_eq_getElem (by rw [hrow i hi]; omega),
    List.getElem?_eq_getElem (by rw [hrow' i hi]; omega)]
  rw [← List.getD_eq_getElem _ none, ← List.getD_eq_getElem _ none]
  exact congrArg some hp

/-! Evaluation, counterexample and witness theorems at concrete
states. -/

/-- C1: evaluation of the code at the failing input.  From the initial
position, after 1. a2–a3 and a Black king relocation e8→a1 (accepted by
`make_move`, which does not validate destinations), the two-file king
move e1→c1 is listed by `get_legal_moves_for_piece` for White's unmoved
king (it is the king's unvalidated castling proposal, and the
relocate-only simulation sees no attack), `make_move` executes it as
queenside castling — relocating the piece on a1, here the Black king,
to d1 — and the resulting position has White's own king attacked,
refuting the claimed king-safety invariant on a position reachable by
successful `make_move` calls. -/
theorem c1_castle_leaves_king_attacked :
    (make_move initialGame (6, 0) (5, 0) none).2 = true ∧
    (make_move c1_g1 (0, 4) (7, 0) none).2 = true ∧
    ((7 : Int), (2 : Int)) ∈ get_legal_moves_for_piece c1_g2 (7, 4) ∧
    (make_move c1_g2 (7, 4) (7, 2) none).2 = true ∧
    is_in_check (make_move c1_g2 (7, 4) (7, 2) none).1 true = true := by decide

/-- C2, counterexample: the ordinary legal knight move g1→f3 followed by
`undo_last_move` leaves the halfmove clock at 1, not at its pre-move
value 0, so the round trip does not restore the FEN halfmove-clock
field. -/
theorem c2_counterexample :
    ((5 : Int), (5 : Int)) ∈ get_legal_moves_for_piece initialGame (7, 6) ∧
    initialGame.halfmove_clock = 0 ∧
    (undo_last_move (make_move initialGame (7, 6) (5, 5) none).1).halfmove_clock = 1 := by
  decide

/-- C3, counterexample: on a board with only an unmoved white king on e1
and a black king on g1, Black is reported in check by `is_in_check`
(the white king's castling proposal `(7, 6)` counts as an attack on g1),
while the claim's attack notion — castling destinations excluded —
reports no check.  The "exactly when" of the claim fails. -/
theorem c3_counterexample :
    is_in_check cg3 false = true ∧ spec_in_check_claimed cg3 false = false := by decide

/-- C4: evaluation of the code at the failing input.  At the initial
position (trivially reachable), the castling destination g1 — a
two-file king move — is listed by `get_legal_moves_for_piece` for the
white king even though the squares between king and rook, f1 and g1,
are occupied: the king's unvalidated proposal bypasses every
castling-eligibility condition of `_get_castling_moves`. -/
theorem c4_castle_through_pieces :
    ((7 : Int), (6 : Int)) ∈ get_legal_moves_for_piece initialGame (7, 4) ∧
    get_piece_at initialGame.board (7, 5) ≠ none ∧
    get_piece_at initialGame.board (7, 6) ≠ none := by decide

/-- C5, counterexample: from a board holding only a black king on a8 and
a white queen on b8, the successful move Kxb8 leaves a single piece on
the board; the code reports `stalemate`, while the claim's
insufficient-material clause ("total remaining pieces <= 2") yields the
insufficient-material draw. -/
theorem c5_counterexample :
    (make_move cg5 (0, 0) (0, 1) none).2 = true ∧
    (make_move cg5 (0, 0) (0, 1) none).1.game_state = Status.stalemate ∧
    spec_status_claimed (make_move cg5 (0, 0) (0, 1) none).1 = Status.draw_insufficient := by
  decide

/-- C6, counterexample: a1→a8 is not a legal move for the white
queenside rook at the initial position (its legal-move list is empty),
yet `make_move` executes it and returns success — `make_move` does not
reject invalid destinations. -/
theorem c6_counterexample :
    ((0 : Int), (0 : Int)) ∉ get_legal_moves_for_piece initialGame (7, 0) ∧
    (make_move initialGame (7, 0) (0, 0) none).2 = true := by decide

/-- C9: a freshly constructed game serializes to exactly the standard
starting-position FEN string. -/
theorem c9_initial_fen :
    to_fen initialGame = "rnbqkbnr/pppppppp/8/8/8/8/PPPPPPPP/RNBQKBNR w KQkq - 0 1" := by
  decide

/-- C10, counterexample: an unmoved white king on the in-bounds corner
square `(0, 7)` returns the castling proposal `(0, 9)` among its
`get_moves` results, a coordinate outside the board. -/
theorem c10_counterexample :
    get_piece_at c10_board (0, 7) = some ⟨Kind.K, true, false⟩ ∧
    inB (0, 7) = true ∧
    ((0 : Int), (9 : Int)) ∈ get_moves ⟨Kind.K, true, false⟩ c10_board (0, 7) [] ∧
    inB (0, 9) = false := by decide

/-! Bounds facts about the move generators (claim C10). -/

theorem slide_inB (pc : Piece) (b : Board) (r c dr dc : Int) (fuel : Nat) :
    ∀ m ∈ slide pc b r c dr dc fuel, inB m = true := by
  induction fuel generalizing r c with
  | zero => intro m hm; simp [slide] at hm
  | succ n ih =>
    intro m hm
    unfold slide at hm
    by_cases hb : inB (r + dr, c + dc) = true
    · rw [if_pos hb] at hm
      cases hg : get_piece_at b (r + dr, c + dc) with
      | none =>
        simp only [hg] at hm
        rcases List.mem_cons.mp hm with rfl | hm'
        · exact hb
        · exact ih _ _ m hm'
      | some t =>
        simp only [hg] at hm
        by_cases ht : (t.is_player1 != pc.is_player1) = true
        · rw [if_pos ht] at hm
          rcases List.mem_singleton.mp hm with rfl
          exact hb
        · rw [if_neg ht] at hm
          simp at hm
    · rw [if_neg hb] at hm
      simp at hm

theorem get_sliding_moves_inB (pc : Piece) (b : Board) (s : Coord)
    (dirs : List (Int × Int)) :
    ∀ m ∈ get_sliding_moves pc b s dirs, inB m = true := by
  intro m hm
  unfold get_sliding_moves at hm
  rcases List.mem_flatMap.mp hm with ⟨d, _, hmem⟩
  exact slide_inB pc b s.1 s.2 d.1 d.2 7 m hmem

theorem knight_moves_inB (pc : Piece) (b : Board) (s : Coord) :
    ∀ m ∈ knight_moves pc b s, inB m = true := by
  intro m hm
  unfold knight_moves at hm
  rcases List.mem_filterMap.mp hm with ⟨d, _, hf⟩
  by_cases hc : inB (s.1 + d.1, s.2 + d.2) = true ∧
      (get_piece_at b (s.1 + d.1, s.2 + d.2) = none ∨
        is_enemy pc (get_piece_at b (s.1 + d.1, s.2 + d.2)) = true)
  · rw [if_pos hc] at hf
    cases hf
    exact hc.1
  · rw [if_neg hc] at hf
    cases hf

theorem king_std_moves_inB (pc : Piece) (b : Board) (s : Coord) :
    ∀ m ∈ king_std_moves pc b s, inB m = true := by
  intro m hm
  unfold king_std_moves at hm
  rcases List.mem_filterMap.mp hm with ⟨d, _, hf⟩
  by_cases hc : inB (s.1 + d.1, s.2 + d.2) = true ∧
      (get_piece_at b (s.1 + d.1, s.2 + d.2) = none ∨
        is_enemy pc (get_piece_at b (s.1 + d.1, s.2 + d.2)) = true)
  · rw [if_pos hc] at hf
    cases hf
    exact hc.1
  · rw [if_neg hc] at hf
    cases hf

theorem pawn_base_moves_inB (pc : Piece) (b : Board) (s : Coord)
    (hs : inB s = true) :
    ∀ m ∈ pawn_base_moves pc b s, inB m = true := by
  intro m hm
  rw [inB_iff] at hs
  unfold pawn_base_moves at hm
  rcases List.mem_append.mp hm with hf | hc
  · set dir : Int := if pc.is_player1 = true then -1 else 1 with hdir
    by_cases h1 : 0 ≤ s.1 + dir ∧ s.1 + dir < BOARD_DIMENSION ∧
        get_piece_at b (s.1 + dir, s.2) = none
    · rw [if_pos h1] at hf
      rcases List.mem_cons.mp hf with rfl | hf2
      · rw [inB_iff]
        refine ⟨h1.1, ?_, by omega, by omega⟩
        have := h1.2.1
        simpa [BOARD_DIMENSION] using this
      · by_cases h2 : pc.has_moved = false ∧ 0 ≤ s.1 + 2 * dir ∧
            s.1 + 2 * dir < BOARD_DIMENSION ∧ get_piece_at b (s.1 + 2 * dir, s.2) = none
        · rw [if_pos h2] at hf2
          rcases List.mem_singleton.mp hf2 with rfl
          rw [inB_iff]
          refine ⟨h2.2.1, ?_, by omega, by omega⟩
          have := h2.2.2.1
          simpa [BOARD_DIMENSION] using this
        · rw [if_neg h2] at hf2
          simp at hf2
    · rw [if_neg h1] at hf
      simp at hf
  · rcases List.mem_filterMap.mp hc with ⟨dc, _, hf⟩
    by_cases h3 : inB (s.1 + (if pc.is_player1 = true then -1 else 1), s.2 + dc) = true ∧
        is_enemy pc (get_piece_at b (s.1 + (if pc.is_player1 = true then -1 else 1), s.2 + dc)) = true
    · rw [if_pos h3] at hf
      cases hf
      exact h3.1
    · rw [if_neg h3] at hf
      cases hf

/-- C10, amended: with the king's castling proposals and the pawn's
en-passant destination set aside, every destination a piece's move
generator returns from an in-bounds start square is itself in bounds:
the full `get_moves` for rook, knight, bishop and queen, the
forward/capture part for the pawn, and the standard one-square part for
the king. -/
theorem c10_bounds_amended (pc : Piece) (b : Board) (s : Coord) (hist : List Move)
    (hs : inB s = true) :
    ((pc.name = Kind.R ∨ pc.name = Kind.N ∨ pc.name = Kind.B ∨ pc.name = Kind.Q) →
      ∀ m ∈ get_moves pc b s hist, inB m = true) ∧
    (∀ m ∈ pawn_base_moves pc b s, inB m = true) ∧
    (∀ m ∈ king_std_moves pc b s, inB m = true) := by
  refine ⟨?_, pawn_base_moves_inB pc b s hs, king_std_moves_inB pc b s⟩
  intro hk m hm
  unfold get_moves at hm
  rcases hk with h | h | h | h <;> rw [h] at hm
  · exact get_sliding_moves_inB pc b s _ m hm
  · exact knight_moves_inB pc b s m hm
  · exact get_sliding_moves_inB pc b s _ m hm
  · exact get_sliding_moves_inB pc b s _ m hm

/-- C10, witness: the amended bounds theorem applied to the white
queenside knight on its initial square. -/
theorem c10_bounds_witness :
    inB (7, 1) = true ∧
    (((Piece.mk Kind.N true false).name = Kind.R ∨
        (Piece.mk Kind.N true false).name = Kind.N ∨
        (Piece.mk Kind.N true false).name = Kind.B ∨
        (Piece.mk Kind.N true false).name = Kind.Q) →
      ∀ m ∈ get_moves (Piece.mk Kind.N true false) initial_board (7, 1) [], inB m = true) ∧
    (∀ m ∈ pawn_base_moves (Piece.mk Kind.N true false) initial_board (7, 1), inB m = true) ∧
    (∀ m ∈ king_std_moves (Piece.mk Kind.N true false) initial_board (7, 1), inB m = true) :=
  ⟨by decide, c10_bounds_amended (Piece.mk Kind.N true false) initial_board (7, 1) [] (by decide)⟩

/-! The check predicate as an existential (claim C3) and the
rejection behaviour of move execution (claim C6). -/

theorem get_piece_at_oob {b : Board} {c : Coord} (h : inB c = false) :
    get_piece_at b c = none := by
  unfold get_piece_at
  rw [if_neg (by simp [h])]

theorem mem_squares_of_inB {c : Coord} (h : inB c = true) : c ∈ squares := by
  rw [inB_iff] at h
  have hc : c = (Int.ofNat c.1.toNat, Int.ofNat c.2.toNat) := by
    apply Prod.ext
    · exact (Int.toNat_of_nonneg h.1).symm
    · exact (Int.toNat_of_nonneg h.2.2.1).symm
  rw [hc]
  unfold squares
  apply List.mem_flatMap.mpr
  refine ⟨c.1.toNat, List.mem_range.mpr (by omega), ?_⟩
  apply List.mem_map.mpr
  exact ⟨c.2.toNat, List.mem_range.mpr (by omega), rfl⟩

theorem is_square_attacked_iff (g : Game) (t : Coord) (w : Bool) :
    is_square_attacked g t w = true ↔
      ∃ c pc, get_piece_at g.board c = some pc ∧ pc.is_player1 = w ∧
        t ∈ get_moves pc g.board c g.move_history := by
  unfold is_square_attacked
  rw [List.any_eq_true]
  constructor
  · rintro ⟨c, hc, hpred⟩
    cases hp : get_piece_at g.board c with
    | none => rw [hp] at hpred; simp at hpred
    | some pc =>
      rw [hp] at hpred
      simp only [Bool.and_eq_true, beq_iff_eq] at hpred
      exact ⟨c, pc, hp, hpred.1, (List.elem_iff).mp hpred.2⟩
  · rintro ⟨c, pc, hp, hw, hmem⟩
    have hin : inB c = true := by
      by_contra h
      rw [get_piece_at_oob (by simpa using h)] at hp
      cases hp
    refine ⟨c, mem_squares_of_inB hin, ?_⟩
    rw [hp]
    simp only [Bool.and_eq_true, beq_iff_eq]
    exact ⟨hw, (List.elem_iff).mpr hmem⟩

/-- C3, amended: a side is in check exactly when a king of that side is
found and its square appears among the pseudo-legal candidate
destinations of some enemy piece, where an unmoved enemy king's
castling proposals DO count as attacks (castling destinations are not
excluded from the attack calculation; `_is_square_attacked` calls the
full `get_moves`). -/
theorem c3_check_amended (g : Game) (p : Bool) :
    is_in_check g p = true ↔
      ∃ kp c pc, find_king g p = some kp ∧ get_piece_at g.board c = some pc ∧
        pc.is_player1 = (!p) ∧ kp ∈ get_moves pc g.board c g.move_history := by
  unfold is_in_check
  cases hk : find_king g p with
  | none =>
    simp only [Bool.false_eq_true, false_iff]
    rintro ⟨kp, c, pc, hkp, _⟩
    cases hkp
  | some kp =>
    rw [is_square_attacked_iff]
    constructor
    · rintro ⟨c, pc, hp, hw, hmem⟩
      exact ⟨kp, c, pc, rfl, hp, hw, hmem⟩
    · rintro ⟨kp', c, pc, hkp', hp, hw, hmem⟩
      cases hkp'
      exact ⟨c, pc, hp, hw, hmem⟩

/-- C6, amended: `make_move` returns failure exactly on empty-origin or
wrong-turn attempts, and a failure is a no-op on the entire engine
state; every other attempt — including destinations that are not legal
moves for the piece — is executed and returns success. -/
theorem c6_reject_amended (g : Game) (s e : Coord) (choice : Option Char) :
    ((make_move g s e choice).2 = true ↔
      ∃ pc, get_piece_at g.board s = some pc ∧ pc.is_player1 = current_is_white g) ∧
    ((make_move g s e choice).2 = false → (make_move g s e choice).1 = g) := by
  cases hp : get_piece_at g.board s with
  | none =>
    have hmm : make_move g s e choice = (g, false) := by
      unfold make_move
      simp only [hp]
    rw [hmm]
    constructor
    · simp only [Bool.false_eq_true, false_iff]
      rintro ⟨pc, hpc, _⟩
      cases hpc
    · intro
      rfl
  | some pc =>
    by_cases hw : (pc.is_player1 != current_is_white g) = true
    · have hmm : make_move g s e choice = (g, false) := by
        unfold make_move
        simp only [hp]
        rw [if_pos hw]
      rw [hmm]
      constructor
      · simp only [Bool.false_eq_true, false_iff]
        rintro ⟨pc', hpc', hown⟩
        cases hpc'
        rw [bne_iff_ne] at hw
        exact hw hown
      · intro
        rfl
    · have hmm : make_move g s e choice =
          (update_game_after_move (execute_board_move g s e choice).1
            (execute_board_move g s e choice).2, true) := by
        unfold make_move
        simp only [hp]
        rw [if_neg hw]
      rw [hmm]
      constructor
      · simp only [true_iff]
        rw [bne_iff_ne, not_ne_iff] at hw
        exact ⟨pc, rfl, hw⟩
      · intro hfalse
        cases hfalse

/-- C6, witness: the empty-origin rejection at the initial position is a
no-op. -/
theorem c6_reject_witness :
    (make_move initialGame (3, 3) (4, 3) none).1 = initialGame :=
  (c6_reject_amended initialGame (3, 3) (4, 3) none).2 (by decide)

/-! Status recomputation (claim C5). -/

theorem insuff_bool_aux (n : Nat) (a : Bool) :
    (if n ≤ 3 then
      if n == 2 then true
      else if n == 3 && a then true
      else false
    else false) = (n == 2 || (n == 3 && a)) := by
  by_cases h2 : n = 2
  · subst h2
    simp
  · by_cases h3 : n = 3
    · subst h3
      simp [h2]
    · by_cases hle : n ≤ 3
      · have e2 : (n == 2) = false := by simpa using h2
        have e3 : (n == 3) = false := by simpa using h3
        simp [hle, e2, e3]
      · have e2 : (n == 2) = false := by simpa using h2
        have e3 : (n == 3) = false := by simpa using h3
        simp [hle, e2, e3]

theorem check_insufficient_eq (g : Game) :
    check_insufficient_material g = spec_insufficient_exact g :=
  insuff_bool_aux (squares.filterMap (fun c => get_piece_at g.board c)).length
    ((squares.filterMap (fun c => get_piece_at g.board c)).any
      (fun p => p.name == Kind.B || p.name == Kind.N))

theorem update_game_status_state_irrel (g : Game) (st : Status) :
    update_game_status { g with game_state := st } = update_game_status g := rfl

theorem spec_status_amended_eq (g : Game) :
    spec_status_amended g = update_game_status g := by
  unfold spec_status_amended spec_status_core update_game_status
  rw [check_insufficient_eq]

/-- C5, amended: after every successful `make_move`, the game status
equals the spec's strict precedence chain — fifty-move clock at 100,
then current-position count at 3, then insufficient material with
"exactly 2 remaining pieces" in place of the claim's "<= 2" (or exactly
3 with a bishop or knight), then checkmate/stalemate by absence of
legal moves, then check/active. -/
theorem c5_status_amended (g : Game) (s e : Coord) (choice : Option Char)
    (hsucc : (make_move g s e choice).2 = true) :
    (make_move g s e choice).1.game_state =
      spec_status_amended (make_move g s e choice).1 := by
  cases hp : get_piece_at g.board s with
  | none =>
    unfold make_move at hsucc
    simp only [hp] at hsucc
    cases hsucc
  | some pc =>
    by_cases hw : (pc.is_player1 != current_is_white g) = true
    · unfold make_move at hsucc
      simp only [hp] at hsucc
      rw [if_pos hw] at hsucc
      cases hsucc
    · have hmm : make_move g s e choice =
          (update_game_after_move (execute_board_move g s e choice).1
            (execute_board_move g s e choice).2, true) := by
        unfold make_move
        simp only [hp]
        rw [if_neg hw]
      rw [hmm]
      unfold update_game_after_move
      rw [spec_status_amended_eq]
      exact (update_game_status_state_irrel _ _).symm

/-- C5, witness: the amended status theorem applied to the opening move
e2–e4 from the initial position. -/
theorem c5_status_witness :
    (make_move initialGame (6, 4) (4, 4) none).2 = true ∧
    (make_move initialGame (6, 4) (4, 4) none).1.game_state =
      spec_status_amended (make_move initialGame (6, 4) (4, 4) none).1 :=
  ⟨by decide, c5_status_amended initialGame (6, 4) (4, 4) none (by decide)⟩

/-! Closed forms of the execution branches, en passant (claim C7)
and promotion (claim C8). -/

theorem update_game_after_move_board (g1 : Game) (mv : Move) :
    (update_game_after_move g1 mv).board = g1.board := rfl

theorem update_game_after_move_history (g1 : Game) (mv : Move) :
    (update_game_after_move g1 mv).move_history = g1.move_history ++ [mv] := rfl

theorem update_game_after_move_index (g1 : Game) (mv : Move) :
    (update_game_after_move g1 mv).current_player_index = 1 - g1.current_player_index := rfl

theorem update_game_after_move_wcap (g1 : Game) (mv : Move) :
    (update_game_after_move g1 mv).white_captured = g1.white_captured := rfl

theorem update_game_after_move_bcap (g1 : Game) (mv : Move) :
    (update_game_after_move g1 mv).black_captured = g1.black_captured := rfl

theorem make_move_success_eq (g : Game) (s e : Coord) (choice : Option Char) (pc : Piece)
    (hp : get_piece_at g.board s = some pc) (hown : pc.is_player1 = current_is_white g) :
    make_move g s e choice =
      (update_game_after_move (execute_board_move g s e choice).1
        (execute_board_move g s e choice).2, true) := by
  unfold make_move
  simp only [hp]
  rw [if_neg (by simp [hown])]

theorem execute_ep_eq (g : Game) (s e : Coord) (ch : Option Char) (pc : Piece)
    (hp : get_piece_at g.board s = some pc) (hkind : pc.name = Kind.P)
    (hcol : s.2 ≠ e.2) (hdest : get_piece_at g.board e = none) :
    execute_board_move g s e ch =
      ({ g with
          board := set_piece_at (set_piece_at (set_piece_at g.board (s.1, e.2) none) e
            (if (pc.name == Kind.P && (e.1 == 0 || e.1 == 7)) = true then
              some ⟨promotion_kind ch, pc.is_player1, false⟩
            else some { pc with has_moved := true })) s none,
          halfmove_clock :=
            if (pc.name == Kind.P || (get_piece_at g.board e).isSome) = true then 0
            else g.halfmove_clock + 1,
          white_captured :=
            (match get_piece_at g.board (s.1, e.2) with
              | some cp =>
                if pc.is_player1 then (g.white_captured, g.black_captured ++ [cp])
                else (g.white_captured ++ [cp], g.black_captured)
              | none => (g.white_captured, g.black_captured)).1,
          black_captured :=
            (match get_piece_at g.board (s.1, e.2) with
              | some cp =>
                if pc.is_player1 then (g.white_captured, g.black_captured ++ [cp])
                else (g.white_captured ++ [cp], g.black_captured)
              | none => (g.white_captured, g.black_captured)).2 },
       ⟨{ pc with has_moved := true }, s, e, get_piece_at g.board (s.1, e.2),
        (pc.name == Kind.P && (e.1 == 0 || e.1 == 7)),
        (if (pc.name == Kind.P && (e.1 == 0 || e.1 == 7)) = true then
          some ⟨promotion_kind ch, pc.is_player1, false⟩
        else none),
        pc.has_moved, false, true⟩) := by
  have hnotk : ¬(pc.name = Kind.K ∧ (s.2 - e.2).natAbs = 2) := by
    rintro ⟨h, _⟩
    rw [hkind] at h
    cases h
  have hep : pc.name = Kind.P ∧ s.2 ≠ e.2 ∧ get_piece_at g.board e = none :=
    ⟨hkind, hcol, hdest⟩
  unfold execute_board_move
  simp only [hp]
  rw [if_neg hnotk, if_pos hep]
  by_cases hprom : (pc.name == Kind.P && (e.1 == 0 || e.1 == 7)) = true <;> simp [hprom]

theorem execute_ordinary_eq (g : Game) (s e : Coord) (ch : Option Char) (pc : Piece)
    (hp : get_piece_at g.board s = some pc)
    (hnotk : ¬(pc.name = Kind.K ∧ (s.2 - e.2).natAbs = 2))
    (hnotep : ¬(pc.name = Kind.P ∧ s.2 ≠ e.2 ∧ get_piece_at g.board e = none)) :
    execute_board_move g s e ch =
      ({ g with
          board := set_piece_at (set_piece_at g.board e
            (if (pc.name == Kind.P && (e.1 == 0 || e.1 == 7)) = true then
              some ⟨promotion_kind ch, pc.is_player1, false⟩
            else some { pc with has_moved := true })) s none,
          halfmove_clock :=
            if (pc.name == Kind.P || (get_piece_at g.board e).isSome) = true then 0
            else g.halfmove_clock + 1,
          white_captured :=
            (match get_piece_at g.board e with
              | some cp =>
                if pc.is_player1 then (g.white_captured, g.black_captured ++ [cp])
                else (g.white_captured ++ [cp], g.black_captured)
              | none => (g.white_captured, g.black_captured)).1,
          black_captured :=
            (match get_piece_at g.board e with
              | some cp =>
                if pc.is_player1 then (g.white_captured, g.black_captured ++ [cp])
                else (g.white_captured ++ [cp], g.black_captured)
              | none => (g.white_captured, g.black_captured)).2 },
       ⟨{ pc with has_moved := true }, s, e, get_piece_at g.board e,
        (pc.name == Kind.P && (e.1 == 0 || e.1 == 7)),
        (if (pc.name == Kind.P && (e.1 == 0 || e.1 == 7)) = true then
          some ⟨promotion_kind ch, pc.is_player1, false⟩
        else none),
        pc.has_moved, false, false⟩) := by
  unfold execute_board_move
  simp only [hp]
  rw [if_neg hnotk, if_neg hnotep]
  by_cases hprom : (pc.name == Kind.P && (e.1 == 0 || e.1 == 7)) = true <;> simp [hprom]

theorem execute_castle_ks_eq (g : Game) (s e : Coord) (ch : Option Char) (pc : Piece)
    (hp : get_piece_at g.board s = some pc)
    (hcastle : pc.name = Kind.K ∧ (s.2 - e.2).natAbs = 2)
    (hgt : e.2 > s.2) :
    execute_board_move g s e ch =
      ({ g with
          board := set_piece_at (set_piece_at (set_piece_at (set_piece_at g.board
            (s.1, 5) ((get_piece_at g.board (s.1, 7)).map (fun r => { r with has_moved := true })))
            (s.1, 7) none) e
            (if (pc.name == Kind.P && (e.1 == 0 || e.1 == 7)) = true then
              some ⟨promotion_kind ch, pc.is_player1, false⟩
            else some { pc with has_moved := true })) s none,
          halfmove_clock :=
            if (pc.name == Kind.P || (get_piece_at g.board e).isSome) = true then 0
            else g.halfmove_clock + 1,
          white_captured :=
            (match get_piece_at g.board e with
              | some cp =>
                if pc.is_player1 then (g.white_captured, g.black_captured ++ [cp])
                else (g.white_captured ++ [cp], g.black_captured)
              | none => (g.white_captured, g.black_captured)).1,
          black_captured :=
            (match get_piece_at g.board e with
              | some cp =>
                if pc.is_player1 then (g.white_captured, g.black_captured ++ [cp])
                else (g.white_captured ++ [cp], g.black_captured)
              | none => (g.white_captured, g.black_captured)).2 },
       ⟨{ pc with has_moved := true }, s, e, get_piece_at g.board e,
        (pc.name == Kind.P && (e.1 == 0 || e.1 == 7)),
        (if (pc.name == Kind.P && (e.1 == 0 || e.1 == 7)) = true then
          some ⟨promotion_kind ch, pc.is_player1, false⟩
        else none),
        pc.has_moved, true, false⟩) := by
  unfold execute_board_move
  simp only [hp]
  rw [if_pos hcastle, if_pos hgt]
  by_cases hprom : (pc.name == Kind.P && (e.1 == 0 || e.1 == 7)) = true <;> simp [hprom]

theorem execute_castle_qs_eq (g : Game) (s e : Coord) (ch : Option Char) (pc : Piece)
    (hp : get_piece_at g.board s = some pc)
    (hcastle : pc.name = Kind.K ∧ (s.2 - e.2).natAbs = 2)
    (hngt : ¬(e.2 > s.2)) :
    execute_board_move g s e ch =
      ({ g with
          board := set_piece_at (set_piece_at (set_piece_at (set_piece_at g.board
            (s.1, 3) ((get_piece_at g.board (s.1, 0)).map (fun r => { r with has_moved := true })))
            (s.1, 0) none) e
            (if (pc.name == Kind.P && (e.1 == 0 || e.1 == 7)) = true then
              some ⟨promotion_kind ch, pc.is_player1, false⟩
            else some { pc with has_moved := true })) s none,
          halfmove_clock :=
            if (pc.name == Kind.P || (get_piece_at g.board e).isSome) = true then 0
            else g.halfmove_clock + 1,
          white_captured :=
            (match get_piece_at g.board e with
              | some cp =>
                if pc.is_player1 then (g.white_captured, g.black_captured ++ [cp])
                else (g.white_captured ++ [cp], g.black_captured)
              | none => (g.white_captured, g.black_captured)).1,
          black_captured :=
            (match get_piece_at g.board e with
              | some cp =>
                if pc.is_player1 then (g.white_captured, g.black_captured ++ [cp])
                else (g.white_captured ++ [cp], g.black_captured)
              | none => (g.white_captured, g.black_captured)).2 },
       ⟨{ pc with has_moved := true }, s, e, get_piece_at g.board e,
        (pc.name == Kind.P && (e.1 == 0 || e.1 == 7)),
        (if (pc.name == Kind.P && (e.1 == 0 || e.1 == 7)) = true then
          some ⟨promotion_kind ch, pc.is_player1, false⟩
        else none),
        pc.has_moved, true, false⟩) := by
  unfold execute_board_move
  simp only [hp]
  rw [if_pos hcastle, if_neg hngt]
  by_cases hprom : (pc.name == Kind.P && (e.1 == 0 || e.1 == 7)) = true <;> simp [hprom]

/-- C7: when `make_move` executes an en-passant capture (a pawn moving
diagonally onto an empty destination), the square on the mover's origin
rank at the destination file is cleared, its prior content is recorded
as the captured piece of the `Move` record, the destination receives
the moving piece, and the record is flagged en passant — the
destination square's prior (empty) content is not what is captured. -/
theorem c7_en_passant (g : Game) (s e : Coord) (choice : Option Char) (pc : Piece)
    (hwf : board_wf g.board) (he : inB e = true) (hcap : inB (s.1, e.2) = true)
    (hp : get_piece_at g.board s = some pc) (hkind : pc.name = Kind.P)
    (hown : pc.is_player1 = current_is_white g)
    (hcol : s.2 ≠ e.2) (hrow : s.1 ≠ e.1)
    (hdest : get_piece_at g.board e = none) :
    get_piece_at (make_move g s e choice).1.board (s.1, e.2) = none ∧
    (get_piece_at (make_move g s e choice).1.board e).isSome = true ∧
    ∃ mv, (make_move g s e choice).1.move_history.getLast? = some mv ∧
      mv.is_en_passant = true ∧ mv.is_castling = false ∧
      mv.piece_captured = get_piece_at g.board (s.1, e.2) := by
  simp only [make_move_success_eq g s e choice pc hp hown,
    execute_ep_eq g s e choice pc hp hkind hcol hdest,
    update_game_after_move_board, update_game_after_move_history]
  have hcs : ((s.1, e.2) : Coord) ≠ s := by
    intro h
    rw [Prod.ext_iff] at h
    exact hcol h.2.symm
  have hce : ((s.1, e.2) : Coord) ≠ e := by
    intro h
    rw [Prod.ext_iff] at h
    exact hrow h.1
  have hes : e ≠ s := by
    intro h
    rw [Prod.ext_iff] at h
    exact hcol h.2.symm
  have hwf1 : board_wf (set_piece_at g.board (s.1, e.2) none) := board_wf_set hwf _ _
  refine ⟨?_, ?_, ?_⟩
  · rw [get_set_ne _ hcs, get_set_ne _ hce, get_set_self hwf hcap]
  · rw [get_set_ne _ hes, get_set_self hwf1 he]
    by_cases hprom : (pc.name == Kind.P && (e.1 == 0 || e.1 == 7)) = true <;> simp [hprom]
  · exact ⟨_, List.getLast?_concat _, rfl, rfl, rfl⟩

/-- C8: a pawn move executed by `make_move` onto row 0 or row 7 places a
brand-new piece of the requested kind at the destination, of the
mover's color; the kind defaults to Queen for `None` and for every
character outside `{Q, R, B, N}`. -/
theorem c8_promotion (g : Game) (s e : Coord) (choice : Option Char) (pc : Piece)
    (hwf : board_wf g.board) (he : inB e = true) (hne : s ≠ e)
    (hp : get_piece_at g.board s = some pc) (hkind : pc.name = Kind.P)
    (hown : pc.is_player1 = current_is_white g)
    (hback : e.1 = 0 ∨ e.1 = 7) :
    get_piece_at (make_move g s e choice).1.board e =
      some ⟨promotion_kind choice, pc.is_player1, false⟩ ∧
    promotion_kind none = Kind.Q ∧
    (∀ ch : Char, ch ∉ (['Q', 'R', 'B', 'N'] : List Char) →
      promotion_kind (some ch) = Kind.Q) := by
  have hes : e ≠ s := fun h => hne h.symm
  have hprom : (pc.name == Kind.P && (e.1 == 0 || e.1 == 7)) = true := by
    rcases hback with h | h <;> simp [hkind, h]
  refine ⟨?_, rfl, ?_⟩
  · by_cases hepc : pc.name = Kind.P ∧ s.2 ≠ e.2 ∧ get_piece_at g.board e = none
    · simp only [make_move_success_eq g s e choice pc hp hown,
        execute_ep_eq g s e choice pc hp hepc.1 hepc.2.1 hepc.2.2,
        update_game_after_move_board]
      have hwf1 : board_wf (set_piece_at g.board (s.1, e.2) none) := board_wf_set hwf _ _
      rw [get_set_ne _ hes, get_set_self hwf1 he, if_pos hprom]
    · have hnotk : ¬(pc.name = Kind.K ∧ (s.2 - e.2).natAbs = 2) := by
        rintro ⟨h, _⟩
        rw [hkind] at h
        cases h
      simp only [make_move_success_eq g s e choice pc hp hown,
        execute_ordinary_eq g s e choice pc hp hnotk hepc,
        update_game_after_move_board]
      rw [get_set_ne _ hes, get_set_self hwf he, if_pos hprom]
  · intro ch hch
    simp only [List.mem_cons, List.not_mem_nil, or_false, not_or] at hch
    unfold promotion_kind
    split
    all_goals first
      | rfl
      | (rename_i heq
         exfalso
         cases heq
         simp_all)

/-- C7, witness: the en-passant theorem applied to a white pawn on e5
capturing onto d6 past a black pawn on d5. -/
theorem c7_en_passant_witness :
    get_piece_at (make_move cg7 (3, 4) (2, 3) none).1.board (3, 3) = none ∧
    (get_piece_at (make_move cg7 (3, 4) (2, 3) none).1.board (2, 3)).isSome = true ∧
    ∃ mv, (make_move cg7 (3, 4) (2, 3) none).1.move_history.getLast? = some mv ∧
      mv.is_en_passant = true ∧ mv.is_castling = false ∧
      mv.piece_captured = get_piece_at cg7.board (3, 3) :=
  c7_en_passant cg7 (3, 4) (2, 3) none ⟨Kind.P, true, true⟩ (by decide) (by decide)
    (by decide) (by decide) rfl (by decide) (by decide) (by decide) (by decide)

/-- C8, witness: the promotion theorem applied to a white pawn moving
a7–a8 with the invalid promotion character `'X'`, which yields a white
queen on a8. -/
theorem c8_promotion_witness :
    get_piece_at (make_move cg8 (1, 0) (0, 0) (some 'X')).1.board (0, 0) =
      some ⟨promotion_kind (some 'X'), true, false⟩ ∧
    promotion_kind none = Kind.Q ∧
    (∀ ch : Char, ch ∉ (['Q', 'R', 'B', 'N'] : List Char) →
      promotion_kind (some ch) = Kind.Q) :=
  c8_promotion cg8 (1, 0) (0, 0) (some 'X') ⟨Kind.P, true, true⟩ (by decide) (by decide)
    (by decide) (by decide) rfl (by decide) (Or.inl rfl)

/-! The apply-undo round trip (claim C2): one lemma per execution
branch, then the assembled theorem. -/

theorem c2_ordinary (g : Game) (s e : Coord) (choice : Option Char) (pc : Piece)
    (hwf : board_wf g.board) (hidx : g.current_player_index ≤ 1)
    (hs : inB s = true) (he : inB e = true) (hne : s ≠ e)
    (hp : get_piece_at g.board s = some pc)
    (hown : pc.is_player1 = current_is_white g)
    (hnotk : ¬(pc.name = Kind.K ∧ (s.2 - e.2).natAbs = 2))
    (hnotep : ¬(pc.name = Kind.P ∧ s.2 ≠ e.2 ∧ get_piece_at g.board e = none)) :
    (undo_last_move (make_move g s e choice).1).board = g.board ∧
    (undo_last_move (make_move g s e choice).1).white_captured = g.white_captured ∧
    (undo_last_move (make_move g s e choice).1).black_captured = g.black_captured ∧
    (undo_last_move (make_move g s e choice).1).current_player_index =
      g.current_player_index ∧
    (undo_last_move (make_move g s e choice).1).move_history = g.move_history := by
  have hes : e ≠ s := fun h => hne h.symm
  rw [make_move_success_eq g s e choice pc hp hown,
    execute_ordinary_eq g s e choice pc hp hnotk hnotep]
  -- name the post-execution board and captured piece
  set PLACED : Option Piece :=
    (if (pc.name == Kind.P && (e.1 == 0 || e.1 == 7)) = true then
      some ⟨promotion_kind choice, pc.is_player1, false⟩
    else some { pc with has_moved := true }) with hPLACED
  set CAP : Option Piece := get_piece_at g.board e with hCAP
  unfold undo_last_move
  rw [update_game_after_move_history]
  simp only [List.getLast?_concat, List.dropLast_concat, update_game_after_move_board,
    update_game_after_move_index, update_game_after_move_wcap, update_game_after_move_bcap]
  rw [if_neg (show ¬(false = true) from by simp), if_neg (show ¬(false = true) from by simp)]
  have w1 : board_wf (set_piece_at g.board e PLACED) := board_wf_set hwf _ _
  have w2 : board_wf (set_piece_at (set_piece_at g.board e PLACED) s none) :=
    board_wf_set w1 _ _
  have w3 : board_wf (set_piece_at (set_piece_at (set_piece_at g.board e PLACED) s none) s
      (some { name := pc.name, is_player1 := pc.is_player1, has_moved := pc.has_moved })) :=
    board_wf_set w2 _ _
  refine ⟨?_, ?_, ?_, ?_, ?_⟩
  · apply board_ext (board_wf_set w3 _ _) hwf
    intro c hc
    rcases eq_or_ne c e with rfl | hce
    · rw [get_set_self w3 he]
    · rw [get_set_ne _ hce]
      rcases eq_or_ne c s with rfl | hcs
      · rw [get_set_self w2 hs, hp]
      · rw [get_set_ne _ hcs, get_set_ne _ hcs, get_set_ne _ hce]
  · clear hnotep hCAP
    clear_value CAP
    rcases CAP with _ | cp
    · simp
    · rcases hpl : pc.is_player1 <;> simp [hpl]
  · clear hnotep hCAP
    clear_value CAP
    rcases CAP with _ | cp
    · simp
    · rcases hpl : pc.is_player1 <;> simp [hpl]
  · show 1 - (1 - g.current_player_index) = g.current_player_index
    omega
  · trivial

theorem c2_ep (g : Game) (s e : Coord) (choice : Option Char) (pc : Piece)
    (hwf : board_wf g.board) (hidx : g.current_player_index ≤ 1)
    (hs : inB s = true) (he : inB e = true)
    (hp : get_piece_at g.board s = some pc)
    (hown : pc.is_player1 = current_is_white g)
    (hkind : pc.name = Kind.P) (hcol : s.2 ≠ e.2) (hrow : s.1 ≠ e.1)
    (hdest : get_piece_at g.board e = none) :
    (undo_last_move (make_move g s e choice).1).board = g.board ∧
    (undo_last_move (make_move g s e choice).1).white_captured = g.white_captured ∧
    (undo_last_move (make_move g s e choice).1).black_captured = g.black_captured ∧
    (undo_last_move (make_move g s e choice).1).current_player_index =
      g.current_player_index ∧
    (undo_last_move (make_move g s e choice).1).move_history = g.move_history := by
  have hes : e ≠ s := by
    intro h
    rw [Prod.ext_iff] at h
    exact hcol h.2.symm
  have hcs : ((s.1, e.2) : Coord) ≠ s := by
    intro h
    rw [Prod.ext_iff] at h
    exact hcol h.2.symm
  have hce : ((s.1, e.2) : Coord) ≠ e := by
    intro h
    rw [Prod.ext_iff] at h
    exact hrow h.1
  have hcapB : inB (s.1, e.2) = true := by
    rw [inB_iff] at hs he ⊢
    exact ⟨hs.1, hs.2.1, he.2.2.1, he.2.2.2⟩
  rw [make_move_success_eq g s e choice pc hp hown,
    execute_ep_eq g s e choice pc hp hkind hcol hdest]
  set PLACED : Option Piece :=
    (if (pc.name == Kind.P && (e.1 == 0 || e.1 == 7)) = true then
      some ⟨promotion_kind choice, pc.is_player1, false⟩
    else some { pc with has_moved := true }) with hPLACED
  set CAP : Option Piece := get_piece_at g.board (s.1, e.2) with hCAP
  unfold undo_last_move
  rw [update_game_after_move_history]
  simp only [List.getLast?_concat, List.dropLast_concat, update_game_after_move_board,
    update_game_after_move_index, update_game_after_move_wcap, update_game_after_move_bcap]
  rw [if_neg (show ¬(false = true) from by simp), if_pos trivial]
  have w0 : board_wf (set_piece_at g.board (s.1, e.2) none) := board_wf_set hwf _ _
  have w1 : board_wf (set_piece_at (set_piece_at g.board (s.1, e.2) none) e PLACED) :=
    board_wf_set w0 _ _
  have w2 : board_wf (set_piece_at (set_piece_at (set_piece_at g.board (s.1, e.2) none) e
      PLACED) s none) := board_wf_set w1 _ _
  have w3 : board_wf (set_piece_at (set_piece_at (set_piece_at (set_piece_at g.board
      (s.1, e.2) none) e PLACED) s none) s
      (some { name := pc.name, is_player1 := pc.is_player1, has_moved := pc.has_moved })) :=
    board_wf_set w2 _ _
  have w4 : board_wf (set_piece_at (set_piece_at (set_piece_at (set_piece_at (set_piece_at
      g.board (s.1, e.2) none) e PLACED) s none) s
      (some { name := pc.name, is_player1 := pc.is_player1, has_moved := pc.has_moved }))
      (s.1, e.2) CAP) := board_wf_set w3 _ _
  refine ⟨?_, ?_, ?_, ?_, ?_⟩
  · apply board_ext (board_wf_set w4 _ _) hwf
    intro c hc
    rcases eq_or_ne c e with rfl | hne_e
    · rw [get_set_self w4 he, hdest]
    · rw [get_set_ne _ hne_e]
      rcases eq_or_ne c ((s.1, e.2) : Coord) with rfl | hne_cap
      · rw [get_set_self w3 hcapB]
      · rw [get_set_ne _ hne_cap]
        rcases eq_or_ne c s with rfl | hne_s
        · rw [get_set_self w2 hs, hp]
        · rw [get_set_ne _ hne_s, get_set_ne _ hne_s, get_set_ne _ hne_e,
            get_set_ne _ hne_cap]
  · clear hCAP
    clear_value CAP
    rcases CAP with _ | cp
    · simp
    · rcases hpl : pc.is_player1 <;> simp [hpl]
  · clear hCAP
    clear_value CAP
    rcases CAP with _ | cp
    · simp
    · rcases hpl : pc.is_player1 <;> simp [hpl]
  · show 1 - (1 - g.current_player_index) = g.current_player_index
    omega
  · trivial

theorem c2_castle_ks (g : Game) (s : Coord) (choice : Option Char) (pc : Piece)
    (hwf : board_wf g.board) (hidx : g.current_player_index ≤ 1)
    (hs : inB s = true)
    (hp : get_piece_at g.board s = some pc)
    (hown : pc.is_player1 = current_is_white g)
    (hkind : pc.name = Kind.K) (hsc : s.2 = 4)
    (R : Piece) (hcorner : get_piece_at g.board (s.1, 7) = some R)
    (hRm : R.has_moved = false)
    (h5 : get_piece_at g.board (s.1, 5) = none)
    (h6 : get_piece_at g.board (s.1, 6) = none) :
    (undo_last_move (make_move g s (s.1, 6) choice).1).board = g.board ∧
    (undo_last_move (make_move g s (s.1, 6) choice).1).white_captured = g.white_captured ∧
    (undo_last_move (make_move g s (s.1, 6) choice).1).black_captured = g.black_captured ∧
    (undo_last_move (make_move g s (s.1, 6) choice).1).current_player_index =
      g.current_player_index ∧
    (undo_last_move (make_move g s (s.1, 6) choice).1).move_history = g.move_history := by
  have hrowB : 0 ≤ s.1 ∧ s.1 < 8 := by
    rw [inB_iff] at hs
    exact ⟨hs.1, hs.2.1⟩
  have hinB : ∀ cl : Int, 0 ≤ cl → cl < 8 → inB (s.1, cl) = true := by
    intro cl h1 h2
    rw [inB_iff]
    exact ⟨hrowB.1, hrowB.2, h1, h2⟩
  have hcastle : pc.name = Kind.K ∧ (s.2 - ((s.1, 6) : Coord).2).natAbs = 2 := by
    refine ⟨hkind, ?_⟩
    show (s.2 - 6).natAbs = 2
    rw [hsc]
    rfl
  have hgt : ((s.1, 6) : Coord).2 > s.2 := by
    show s.2 < 6
    rw [hsc]
    norm_num
  have hne_es : ((s.1, 6) : Coord) ≠ s := by
    intro h
    rw [Prod.ext_iff] at h
    rw [hsc] at h
    exact absurd h.2 (by norm_num)
  have col_ne : ∀ a b : Int, a ≠ b → ((s.1, a) : Coord) ≠ (s.1, b) := by
    intro a b hab h
    rw [Prod.ext_iff] at h
    exact hab h.2
  have hs_eq : s = (s.1, 4) := by
    rw [Prod.ext_iff]
    exact ⟨rfl, hsc⟩
  rw [make_move_success_eq g s (s.1, 6) choice pc hp hown,
    execute_castle_ks_eq g s (s.1, 6) choice pc hp hcastle hgt]
  set PLACED : Option Piece :=
    (if (pc.name == Kind.P && (((s.1, 6) : Coord).1 == 0 || ((s.1, 6) : Coord).1 == 7)) = true then
      some ⟨promotion_kind choice, pc.is_player1, false⟩
    else some { pc with has_moved := true }) with hPLACED
  rw [h6]
  unfold undo_last_move
  rw [update_game_after_move_history]
  simp only [List.getLast?_concat, List.dropLast_concat, update_game_after_move_board,
    update_game_after_move_index, update_game_after_move_wcap, update_game_after_move_bcap]
  rw [if_pos trivial, if_pos hgt, if_pos (show (7 : Int) = 7 from rfl)]
  have w1 : board_wf (set_piece_at g.board (s.1, 5)
      (Option.map (fun r => { r with has_moved := true }) (get_piece_at g.board (s.1, 7)))) :=
    board_wf_set hwf _ _
  have w2 : board_wf (set_piece_at (set_piece_at g.board (s.1, 5)
      (Option.map (fun r => { r with has_moved := true }) (get_piece_at g.board (s.1, 7))))
      (s.1, 7) none) := board_wf_set w1 _ _
  have w3 : board_wf (set_piece_at (set_piece_at (set_piece_at g.board (s.1, 5)
      (Option.map (fun r => { r with has_moved := true }) (get_piece_at g.board (s.1, 7))))
      (s.1, 7) none) (s.1, 6) PLACED) := board_wf_set w2 _ _
  have w4 : board_wf (set_piece_at (set_piece_at (set_piece_at (set_piece_at g.board (s.1, 5)
      (Option.map (fun r => { r with has_moved := true }) (get_piece_at g.board (s.1, 7))))
      (s.1, 7) none) (s.1, 6) PLACED) s none) := board_wf_set w3 _ _
  have w5 : board_wf (set_piece_at (set_piece_at (set_piece_at (set_piece_at (set_piece_at
      g.board (s.1, 5)
      (Option.map (fun r => { r with has_moved := true }) (get_piece_at g.board (s.1, 7))))
      (s.1, 7) none) (s.1, 6) PLACED) s none) s
      (some { name := pc.name, is_player1 := pc.is_player1, has_moved := pc.has_moved })) :=
    board_wf_set w4 _ _
  have hrookeval : get_piece_at (set_piece_at (set_piece_at (set_piece_at (set_piece_at
      (set_piece_at g.board (s.1, 5)
      (Option.map (fun r => { r with has_moved := true }) (get_piece_at g.board (s.1, 7))))
      (s.1, 7) none) (s.1, 6) PLACED) s none) s
      (some { name := pc.name, is_player1 := pc.is_player1, has_moved := pc.has_moved }))
      (s.1, 5) = some { R with has_moved := true } := by
    rw [hs_eq]
    rw [get_set_ne _ (col_ne 5 4 (by norm_num)), get_set_ne _ (col_ne 5 4 (by norm_num)),
      get_set_ne _ (col_ne 5 6 (by norm_num)), get_set_ne _ (col_ne 5 7 (by norm_num)),
      get_set_self hwf (hinB 5 (by norm_num) (by norm_num)), hcorner]
    rfl
  rw [hrookeval]
  have w6 : board_wf (set_piece_at (set_piece_at (set_piece_at (set_piece_at (set_piece_at
      (set_piece_at g.board (s.1, 5)
      (Option.map (fun r => { r with has_moved := true }) (get_piece_at g.board (s.1, 7))))
      (s.1, 7) none) (s.1, 6) PLACED) s none) s
      (some { name := pc.name, is_player1 := pc.is_player1, has_moved := pc.has_moved }))
      (s.1, 7) (Option.map (fun r => { r with has_moved := false })
        (some { R with has_moved := true }))) := board_wf_set w5 _ _
  have w7 : board_wf (set_piece_at (set_piece_at (set_piece_at (set_piece_at (set_piece_at
      (set_piece_at (set_piece_at g.board (s.1, 5)
      (Option.map (fun r => { r with has_moved := true }) (get_piece_at g.board (s.1, 7))))
      (s.1, 7) none) (s.1, 6) PLACED) s none) s
      (some { name := pc.name, is_player1 := pc.is_player1, has_moved := pc.has_moved }))
      (s.1, 7) (Option.map (fun r => { r with has_moved := false })
        (some { R with has_moved := true }))) (s.1, 5) none) := board_wf_set w6 _ _
  refine ⟨?_, ?_, ?_, ?_, ?_⟩
  · apply board_ext (board_wf_set w7 _ _) hwf
    intro c hc
    rcases eq_or_ne c ((s.1, 6) : Coord) with rfl | hne6
    · rw [get_set_self w7 (hinB 6 (by norm_num) (by norm_num)), h6]
    · rw [get_set_ne _ hne6]
      rcases eq_or_ne c ((s.1, 5) : Coord) with rfl | hne5
      · rw [get_set_self w6 (hinB 5 (by norm_num) (by norm_num)), h5]
      · rw [get_set_ne _ hne5]
        rcases eq_or_ne c ((s.1, 7) : Coord) with rfl | hne7
        · rw [get_set_self w5 (hinB 7 (by norm_num) (by norm_num)), hcorner]
          show some { name := R.name, is_player1 := R.is_player1, has_moved := false } = some R
          rw [← hRm]
        · rw [get_set_ne _ hne7]
          rcases eq_or_ne c s with rfl | hne_s
          · rw [get_set_self w4 hs, hp]
          · rw [get_set_ne _ hne_s, get_set_ne _ hne_s, get_set_ne _ hne6,
              get_set_ne _ hne7, get_set_ne _ hne5]
  · simp
  · simp
  · show 1 - (1 - g.current_player_index) = g.current_player_index
    omega
  · trivial

theorem c2_castle_qs (g : Game) (s : Coord) (choice : Option Char) (pc : Piece)
    (hwf : board_wf g.board) (hidx : g.current_player_index ≤ 1)
    (hs : inB s = true)
    (hp : get_piece_at g.board s = some pc)
    (hown : pc.is_player1 = current_is_white g)
    (hkind : pc.name = Kind.K) (hsc : s.2 = 4)
    (R : Piece) (hcorner : get_piece_at g.board (s.1, 0) = some R)
    (hRm : R.has_moved = false)
    (h3 : get_piece_at g.board (s.1, 3) = none)
    (h2 : get_piece_at g.board (s.1, 2) = none) :
    (undo_last_move (make_move g s (s.1, 2) choice).1).board = g.board ∧
    (undo_last_move (make_move g s (s.1, 2) choice).1).white_captured = g.white_captured ∧
    (undo_last_move (make_move g s (s.1, 2) choice).1).black_captured = g.black_captured ∧
    (undo_last_move (make_move g s (s.1, 2) choice).1).current_player_index =
      g.current_player_index ∧
    (undo_last_move (make_move g s (s.1, 2) choice).1).move_history = g.move_history := by
  have hrowB : 0 ≤ s.1 ∧ s.1 < 8 := by
    rw [inB_iff] at hs
    exact ⟨hs.1, hs.2.1⟩
  have hinB : ∀ cl : Int, 0 ≤ cl → cl < 8 → inB (s.1, cl) = true := by
    intro cl h1 h2
    rw [inB_iff]
    exact ⟨hrowB.1, hrowB.2, h1, h2⟩
  have hcastle : pc.name = Kind.K ∧ (s.2 - ((s.1, 2) : Coord).2).natAbs = 2 := by
    refine ⟨hkind, ?_⟩
    show (s.2 - 2).natAbs = 2
    rw [hsc]
    rfl
  have hngt : ¬(((s.1, 2) : Coord).2 > s.2) := by
    show ¬(s.2 < 2)
    rw [hsc]
    norm_num
  have col_ne : ∀ a b : Int, a ≠ b → ((s.1, a) : Coord) ≠ (s.1, b) := by
    intro a b hab h
    rw [Prod.ext_iff] at h
    exact hab h.2
  have hs_eq : s = (s.1, 4) := by
    rw [Prod.ext_iff]
    exact ⟨rfl, hsc⟩
  rw [make_move_success_eq g s (s.1, 2) choice pc hp hown,
    execute_castle_qs_eq g s (s.1, 2) choice pc hp hcastle hngt]
  set PLACED : Option Piece :=
    (if (pc.name == Kind.P && (((s.1, 2) : Coord).1 == 0 || ((s.1, 2) : Coord).1 == 7)) = true then
      some ⟨promotion_kind choice, pc.is_player1, false⟩
    else some { pc with has_moved := true }) with hPLACED
  rw [h2]
  unfold undo_last_move
  rw [update_game_after_move_history]
  simp only [List.getLast?_concat, List.dropLast_concat, update_game_after_move_board,
    update_game_after_move_index, update_game_after_move_wcap, update_game_after_move_bcap]
  rw [if_pos trivial, if_neg hngt, if_neg (show ¬((0 : Int) = 7) from by norm_num)]
  have w1 : board_wf (set_piece_at g.board (s.1, 3)
      (Option.map (fun r => { r with has_moved := true }) (get_piece_at g.board (s.1, 0)))) :=
    board_wf_set hwf _ _
  have w2 : board_wf (set_piece_at (set_piece_at g.board (s.1, 3)
      (Option.map (fun r => { r with has_moved := true }) (get_piece_at g.board (s.1, 0))))
      (s.1, 0) none) := board_wf_set w1 _ _
  have w3 : board_wf (set_piece_at (set_piece_at (set_piece_at g.board (s.1, 3)
      (Option.map (fun r => { r with has_moved := true }) (get_piece_at g.board (s.1, 0))))
      (s.1, 0) none) (s.1, 2) PLACED) := board_wf_set w2 _ _
  have w4 : board_wf (set_piece_at (set_piece_at (set_piece_at (set_piece_at g.board (s.1, 3)
      (Option.map (fun r => { r with has_moved := true }) (get_piece_at g.board (s.1, 0))))
      (s.1, 0) none) (s.1, 2) PLACED) s none) := board_wf_set w3 _ _
  have w5 : board_wf (set_piece_at (set_piece_at (set_piece_at (set_piece_at (set_piece_at
      g.board (s.1, 3)
      (Option.map (fun r => { r with has_moved := true }) (get_piece_at g.board (s.1, 0))))
      (s.1, 0) none) (s.1, 2) PLACED) s none) s
      (some { name := pc.name, is_player1 := pc.is_player1, has_moved := pc.has_moved })) :=
    board_wf_set w4 _ _
  have hrookeval : get_piece_at (set_piece_at (set_piece_at (set_piece_at (set_piece_at
      (set_piece_at g.board (s.1, 3)
      (Option.map (fun r => { r with has_moved := true }) (get_piece_at g.board (s.1, 0))))
      (s.1, 0) none) (s.1, 2) PLACED) s none) s
      (some { name := pc.name, is_player1 := pc.is_player1, has_moved := pc.has_moved }))
      (s.1, 3) = some { R with has_moved := true } := by
    rw [hs_eq]
    rw [get_set_ne _ (col_ne 3 4 (by norm_num)), get_set_ne _ (col_ne 3 4 (by norm_num)),
      get_set_ne _ (col_ne 3 2 (by norm_num)), get_set_ne _ (col_ne 3 0 (by norm_num)),
      get_set_self hwf (hinB 3 (by norm_num) (by norm_num)), hcorner]
    rfl
  rw [hrookeval]
  have w6 : board_wf (set_piece_at (set_piece_at (set_piece_at (set_piece_at (set_piece_at
      (set_piece_at g.board (s.1, 3)
      (Option.map (fun r => { r with has_moved := true }) (get_piece_at g.board (s.1, 0))))
      (s.1, 0) none) (s.1, 2) PLACED) s none) s
      (some { name := pc.name, is_player1 := pc.is_player1, has_moved := pc.has_moved }))
      (s.1, 0) (Option.map (fun r => { r with has_moved := false })
        (some { R with has_moved := true }))) := board_wf_set w5 _ _
  have w7 : board_wf (set_piece_at (set_piece_at (set_piece_at (set_piece_at (set_piece_at
      (set_piece_at (set_piece_at g.board (s.1, 3)
      (Option.map (fun r => { r with has_moved := true }) (get_piece_at g.board (s.1, 0))))
      (s.1, 0) none) (s.1, 2) PLACED) s none) s
      (some { name := pc.name, is_player1 := pc.is_player1, has_moved := pc.has_moved }))
      (s.1, 0) (Option.map (fun r => { r with has_moved := false })
        (some { R with has_moved := true }))) (s.1, 3) none) := board_wf_set w6 _ _
  refine ⟨?_, ?_, ?_, ?_, ?_⟩
  · apply board_ext (board_wf_set w7 _ _) hwf
    intro c hc
    rcases eq_or_ne c ((s.1, 2) : Coord) with rfl | hne2
    · rw [get_set_self w7 (hinB 2 (by norm_num) (by norm_num)), h2]
    · rw [get_set_ne _ hne2]
      rcases eq_or_ne c ((s.1, 3) : Coord) with rfl | hne3
      · rw [get_set_self w6 (hinB 3 (by norm_num) (by norm_num)), h3]
      · rw [get_set_ne _ hne3]
        rcases eq_or_ne c ((s.1, 0) : Coord) with rfl | hne0
        · rw [get_set_self w5 (hinB 0 (by norm_num) (by norm_num)), hcorner]
          show some { name := R.name, is_player1 := R.is_player1, has_moved := false } = some R
          rw [← hRm]
        · rw [get_set_ne _ hne0]
          rcases eq_or_ne c s with rfl | hne_s
          · rw [get_set_self w4 hs, hp]
          · rw [get_set_ne _ hne_s, get_set_ne _ hne_s, get_set_ne _ hne2,
              get_set_ne _ hne0, get_set_ne _ hne3]
  · simp
  · simp
  · show 1 - (1 - g.current_player_index) = g.current_player_index
    omega
  · trivial

theorem fen_board_congr {g1 g2 : Game} (h : g1.board = g2.board) :
    fen_board g1 = fen_board g2 := by
  unfold fen_board
  rw [h]

theorem fen_castling_congr {g1 g2 : Game} (h : g1.board = g2.board) :
    fen_castling g1 = fen_castling g2 := by
  unfold fen_castling
  rw [h]

theorem fen_active_color_congr {g1 g2 : Game}
    (h : g1.current_player_index = g2.current_player_index) :
    fen_active_color g1 = fen_active_color g2 := by
  unfold fen_active_color
  rw [h]

/-- C2, amended: for a move `make_move` accepts — with, for a castling
execution, the castling-eligibility board conditions (an unmoved rook
in the relevant corner and the squares between king and rook empty) and,
for an en-passant execution, a genuine rank change — `make_move`
followed by `undo_last_move` restores board occupancy, both
captured-piece lists, the side to move, the move history, and the FEN
fields piece placement, active color and castling rights to their exact
pre-move values.  The halfmove clock is NOT restored (see the
counterexample), and the claim's unrestricted castling case fails
because the king's unvalidated two-file proposals execute as castling
on boards that violate the eligibility conditions. -/
theorem c2_round_trip_amended (g : Game) (s e : Coord) (choice : Option Char) (pc : Piece)
    (hwf : board_wf g.board) (hidx : g.current_player_index ≤ 1)
    (hs : inB s = true) (he : inB e = true) (hne : s ≠ e)
    (hp : get_piece_at g.board s = some pc)
    (hown : pc.is_player1 = current_is_white g)
    (hcastle : pc.name = Kind.K ∧ (s.2 - e.2).natAbs = 2 → castle_pre g s e)
    (hep : pc.name = Kind.P ∧ s.2 ≠ e.2 ∧ get_piece_at g.board e = none → s.1 ≠ e.1) :
    (undo_last_move (make_move g s e choice).1).board = g.board ∧
    (undo_last_move (make_move g s e choice).1).white_captured = g.white_captured ∧
    (undo_last_move (make_move g s e choice).1).black_captured = g.black_captured ∧
    (undo_last_move (make_move g s e choice).1).current_player_index =
      g.current_player_index ∧
    (undo_last_move (make_move g s e choice).1).move_history = g.move_history ∧
    fen_board (undo_last_move (make_move g s e choice).1) = fen_board g ∧
    fen_active_color (undo_last_move (make_move g s e choice).1) = fen_active_color g ∧
    fen_castling (undo_last_move (make_move g s e choice).1) = fen_castling g := by
  have core :
      (undo_last_move (make_move g s e choice).1).board = g.board ∧
      (undo_last_move (make_move g s e choice).1).white_captured = g.white_captured ∧
      (undo_last_move (make_move g s e choice).1).black_captured = g.black_captured ∧
      (undo_last_move (make_move g s e choice).1).current_player_index =
        g.current_player_index ∧
      (undo_last_move (make_move g s e choice).1).move_history = g.move_history := by
    by_cases hcK : pc.name = Kind.K ∧ (s.2 - e.2).natAbs = 2
    · rcases hcastle hcK with ⟨hsc, hee, hrk, h5, h6⟩ | ⟨hsc, hee, hrk, h1, h2, h3⟩
      · subst hee
        cases hR : get_piece_at g.board (s.1, 7) with
        | none =>
          rw [hR] at hrk
          cases hrk
        | some R =>
          rw [hR] at hrk
          have hRm : R.has_moved = false := by
            simp only [rook_ok, Bool.and_eq_true, Bool.not_eq_eq_eq_not, Bool.not_true] at hrk
            exact hrk.2
          exact c2_castle_ks g s choice pc hwf hidx hs hp hown hcK.1 hsc R hR hRm h5 h6
      · subst hee
        cases hR : get_piece_at g.board (s.1, 0) with
        | none =>
          rw [hR] at hrk
          cases hrk
        | some R =>
          rw [hR] at hrk
          have hRm : R.has_moved = false := by
            simp only [rook_ok, Bool.and_eq_true, Bool.not_eq_eq_eq_not, Bool.not_true] at hrk
            exact hrk.2
          exact c2_castle_qs g s choice pc hwf hidx hs hp hown hcK.1 hsc R hR hRm h3 h2
    · by_cases hcE : pc.name = Kind.P ∧ s.2 ≠ e.2 ∧ get_piece_at g.board e = none
      · exact c2_ep g s e choice pc hwf hidx hs he hp hown hcE.1 hcE.2.1 (hep hcE) hcE.2.2
      · exact c2_ordinary g s e choice pc hwf hidx hs he hne hp hown hcK hcE
  exact ⟨core.1, core.2.1, core.2.2.1, core.2.2.2.1, core.2.2.2.2,
    fen_board_congr core.1, fen_active_color_congr core.2.2.2.1,
    fen_castling_congr core.1⟩

/-- C2, witness: the round-trip theorem applied to the ordinary legal
knight move g1–f3 from the initial position. -/
theorem c2_round_trip_witness :
    (undo_last_move (make_move initialGame (7, 6) (5, 5) none).1).board =
      initialGame.board ∧
    (undo_last_move (make_move initialGame (7, 6) (5, 5) none).1).white_captured =
      initialGame.white_captured ∧
    (undo_last_move (make_move initialGame (7, 6) (5, 5) none).1).black_captured =
      initialGame.black_captured ∧
    (undo_last_move (make_move initialGame (7, 6) (5, 5) none).1).current_player_index =
      initialGame.current_player_index ∧
    (undo_last_move (make_move initialGame (7, 6) (5, 5) none).1).move_history =
      initialGame.move_history ∧
    fen_board (undo_last_move (make_move initialGame (7, 6) (5, 5) none).1) =
      fen_board initialGame ∧
    fen_active_color (undo_last_move (make_move initialGame (7, 6) (5, 5) none).1) =
      fen_active_color initialGame ∧
    fen_castling (undo_last_move (make_move initialGame (7, 6) (5, 5) none).1) =
      fen_castling initialGame :=
  c2_round_trip_amended initialGame (7, 6) (5, 5) none ⟨Kind.N, true, false⟩
    (by decide) (by decide) (by decide) (by decide) (by decide) (by decide) (by decide)
    (fun h => absurd h.1 (by decide)) (fun h => absurd h.1 (by decide))

end ChessEngine



